import Mathlib

/-!
Verification of the simplified-jmdict-to-sql ingestion pipeline.

This file gives a shallow embedding of the SQLite-based loading pipeline:

* `src/database/schema.py` (`DatabaseSchema.create_tables`, `_create_indexes`,
  `rebuild_fts_index`),
* `src/documentParssing/jmdict_parser.py` (`JMdictParser.parse_file`,
  `_process_tags`, `_process_word_batch`, `_get_tag_id`,
  `_recreate_fts_triggers`),
* `src/documentParssing/kanjidic_parser.py`
  (`Kanjidic2Parser._process_character_batch`),
* `src/dataLoaders/dict_loaders.py` (`DictionaryLoader.load_jmdict` and the
  inline kanjidic FTS rebuild of `load_kanjidic`),
* `src/DatabaseGeneration/data_loader.py` (the metadata insert of
  `DataLoader.load_jmdict_data`).

The database is modelled as a record of table contents (lists of rows), one
autoincrement counter per table with an `INTEGER PRIMARY KEY`, the contents of
the two external-content FTS indexes, and boolean flags recording whether the
FTS virtual tables and their synchronization triggers currently exist.  A
connection carries a committed snapshot and the current (in-transaction) state;
`commit` copies current over committed.  Python exceptions (`KeyError`,
`ValueError`, `IndexError`, `sqlite3.IntegrityError`,
`sqlite3.OperationalError`) are modelled with an error type; statements that
have already executed keep their effect when a later statement raises, so the
batch functions return a (state, optional error) pair rather than an `Except`.

JSON entities are modelled by records.  A field the Python code reads with
`d['key']` (raising `KeyError` when absent) is an `Option` field, `none`
standing for the absent key; a field read with `d.get('key', default)` is a
plain field whose default is the Python default.  The FTS index is modelled at
row granularity as a list of (rowid, text) pairs; the token index is the
deterministic image of those texts under the tokenizer, modelled for the
ASCII inputs used here as splitting on spaces.
-/

/-- Python exceptions raised by the pipeline code. -/
inductive PyErr where
  | keyError
  | valueError
  | indexError
  | integrityError
  | operationalError
deriving DecidableEq, Repr

/-- Row of the `tags` table: `(id INTEGER PRIMARY KEY, tag, description, category, UNIQUE(tag, category))`. -/
structure TagRow where
  id : Nat
  tag : String
  description : Option String
  category : String
deriving DecidableEq, Repr

/-- Row of `jmdict_kanji`: `(id INTEGER PRIMARY KEY, entry_id, text, common)`. -/
structure KanjiRow where
  id : Nat
  entry_id : String
  text : String
  common : Bool
deriving DecidableEq, Repr

/-- Row of `jmdict_kana`: `(id INTEGER PRIMARY KEY, entry_id, text, common)`. -/
structure KanaRow where
  id : Nat
  entry_id : String
  text : String
  common : Bool
deriving DecidableEq, Repr

/-- Row of `jmdict_gloss`: `(id INTEGER PRIMARY KEY, sense_id, text, lang, gender, type)`.
The `type` column is called `gtype` here. -/
structure GlossRow where
  id : Nat
  sense_id : Nat
  text : String
  lang : String
  gender : Option String
  gtype : Option String
deriving DecidableEq, Repr

/-- Row of `jmdict_language_source`: `(sense_id, lang, full_text, wasei)` (the unused `id` is dropped). -/
structure LangSourceRow where
  sense_id : Nat
  lang : Option String
  full_text : Option String
  wasei : Bool
deriving DecidableEq, Repr

/-- Row of `jmdict_xrefs`: `(sense_id, text, type)` (the unused `id` is dropped); `type` is called `xtype`. -/
structure XrefRow where
  sense_id : Nat
  text : String
  xtype : String
deriving DecidableEq, Repr

/-- Row of `kanjidic_characters`: `(literal TEXT PRIMARY KEY, grade, stroke_count, frequency, jlpt_level)`. -/
structure CharRow where
  literal : String
  grade : Option Nat
  stroke_count : Option Nat
  frequency : Option Nat
  jlpt_level : Option Nat
deriving DecidableEq, Repr

/-- Row of `kanjidic_meanings`: `(id INTEGER PRIMARY KEY, character, lang, value)`. -/
structure MeaningRow where
  id : Nat
  character : String
  lang : String
  value : String
deriving DecidableEq, Repr

/-- The database of `src/database/schema.py`, plus the parser's in-memory tag
cache (`JMdictParser.tag_cache`, owned by the single loader and never touched
by a rollback path, so it is carried in the same state for convenience).
Junction tables and child tables whose autoincrement id is never read are
stored as lists of tuples.  `gloss_fts_exists` / `meanings_fts_exists` record
whether the FTS virtual table exists; `gloss_triggers` / `meanings_triggers`
record whether the three synchronization triggers of that index exist (the
code always creates and drops the three together). -/
structure DB where
  entries : List (String × Nat) := []
  kanji : List KanjiRow := []
  next_kanji_id : Nat := 1
  kanji_tags : List (Nat × Nat) := []
  kana : List KanaRow := []
  next_kana_id : Nat := 1
  kana_tags : List (Nat × Nat) := []
  kana_to_kanji : List (Nat × String) := []
  senses : List (Nat × String) := []
  next_sense_id : Nat := 1
  sense_pos : List (Nat × Nat) := []
  sense_applies_to_kanji : List (Nat × String) := []
  sense_applies_to_kana : List (Nat × String) := []
  sense_field : List (Nat × Nat) := []
  sense_misc : List (Nat × Nat) := []
  sense_dialect : List (Nat × Nat) := []
  sense_info : List (Nat × String) := []
  glosses : List GlossRow := []
  next_gloss_id : Nat := 1
  language_source : List LangSourceRow := []
  xrefs : List XrefRow := []
  tags : List TagRow := []
  next_tag_id : Nat := 1
  tag_cache : List ((String × String) × Nat) := []
  gloss_fts_exists : Bool := false
  gloss_fts : List (Nat × String) := []
  gloss_triggers : Bool := false
  characters : List CharRow := []
  codepoints : List (String × String × String) := []
  radicals : List (String × String × Nat) := []
  variants : List (String × String × String) := []
  radical_names : List (String × String) := []
  dict_references : List (String × String × String) := []
  query_codes : List (String × String × String) := []
  readings : List (String × String × String) := []
  meanings : List MeaningRow := []
  next_meaning_id : Nat := 1
  nanori : List (String × String) := []
  meanings_fts_exists : Bool := false
  meanings_fts : List (Nat × String) := []
  meanings_triggers : Bool := false
deriving Repr

/-- A SQLite connection: the committed snapshot and the current
(in-transaction) view.  `PRAGMA foreign_keys` is connection state, not
transactional. -/
structure Conn where
  committed : DB := {}
  current : DB := {}
  fkEnabled : Bool := true
deriving Repr

/-- Effect of `conn.commit()`. -/
def commitConn (c : Conn) : Conn :=
  { c with committed := c.current }

/-- An empty database, as right after `sqlite3.connect` on a fresh file. -/
def emptyDB : DB := {}

/-- A fresh connection (`DatabaseSchema.connect` enables foreign keys). -/
def initialConn : Conn := {}

/-! JSON entity shapes, as accessed by the parsers. -/

/-- One element of a word's `kanji` array.  `text` is read with
`kanji['text']` (required, `Option` models a missing key); `common` and `tags`
are read with `.get` and given their Python defaults. -/
structure KanjiJson where
  text : Option String := none
  common : Bool := false
  tags : List String := []
deriving DecidableEq, Repr

/-- One element of a word's `kana` array; `appliesToKanji` defaults to
`["*"]` exactly as in `kana.get('appliesToKanji', ['*'])`. -/
structure KanaJson where
  text : Option String := none
  common : Bool := false
  tags : List String := []
  appliesToKanji : List String := ["*"]
deriving DecidableEq, Repr

/-- One element of a sense's `gloss` array; `text` and `lang` are required
(`gloss['text']`, `gloss['lang']`). -/
structure GlossJson where
  text : Option String := none
  lang : Option String := none
  gender : Option String := none
  gtype : Option String := none
deriving DecidableEq, Repr

/-- One element of a sense's `languageSource` array; every field is read
with `.get`. -/
structure LangSourceJson where
  lang : Option String := none
  full : Option String := none
  wasei : Bool := false
deriving DecidableEq, Repr

/-- One element of a word's `sense` array; every field is read with `.get`
and given its Python default.  `related` and `antonym` elements are stored
already stringified (the code inserts `str(related)`). -/
structure SenseJson where
  partOfSpeech : List String := []
  appliesToKanji : List String := ["*"]
  appliesToKana : List String := ["*"]
  field : List String := []
  misc : List String := []
  dialect : List String := []
  info : List String := []
  gloss : List GlossJson := []
  languageSource : List LangSourceJson := []
  related : List String := []
  antonym : List String := []
deriving DecidableEq, Repr

/-- One element of the document's `words` array; `id` is required
(`word['id']`). -/
structure WordJson where
  id : Option String := none
  kanji : List KanjiJson := []
  kana : List KanaJson := []
  sense : List SenseJson := []
deriving DecidableEq, Repr

/-- A parsed JMdict JSON document: `data.get('tags', {})` (an ordered dict,
modelled as an association list) and `data.get('words', [])`. -/
structure JmdictDoc where
  tags : List (String × String) := []
  words : List WordJson := []
deriving DecidableEq, Repr

/-- Python `int(s)` restricted to the canonical nonnegative decimal strings
that occur as JMdict ids; any other string raises `ValueError`. -/
def decDigitsGo : List Char → Nat → Option Nat
  | [], n => some n
  | ch :: rest, n =>
      if '0' ≤ ch ∧ ch ≤ '9' then decDigitsGo rest (n * 10 + (ch.toNat - '0'.toNat))
      else none

/-- Python `int(word['id'])`. -/
def pyInt (s : String) : Except PyErr Nat :=
  match s.data with
  | [] => .error .valueError
  | cs =>
      match decDigitsGo cs 0 with
      | some n => .ok n
      | none => .error .valueError

/-! The tag resolver (`JMdictParser._get_tag_id`) and the tags table. -/

/-- Lookup in the in-memory tag cache (`self.tag_cache`, a dict keyed by
`(tag, category)`; assignments are modelled by prepending, so the head entry
for a key is its current value). -/
def cacheLookup : List ((String × String) × Nat) → String → String → Option Nat
  | [], _, _ => none
  | e :: rest, t, c => if e.1 = (t, c) then some e.2 else cacheLookup rest t c

/-- Record `self.tag_cache[(tag, category)] = tag_id`. -/
def cachePut (db : DB) (t c : String) (id : Nat) : DB :=
  { db with tag_cache := ((t, c), id) :: db.tag_cache }

/-- The query `SELECT id FROM tags WHERE tag = ? AND category = ?` with
`fetchone` (first matching row). -/
def tagsSelect : List TagRow → String → String → Option Nat
  | [], _, _ => none
  | r :: rs, t, c => if r.tag = t ∧ r.category = c then some r.id else tagsSelect rs t c

/-- The plain `INSERT INTO tags (tag, description, category) VALUES (?, ?, ?)`:
raises `IntegrityError` when a row with the same `(tag, category)` already
exists (the table has `UNIQUE(tag, category)`), otherwise appends a row under
the next autoincrement id and returns `lastrowid`. -/
def tagsInsertPlain (db : DB) (t : String) (d : Option String) (c : String) :
    Except PyErr (DB × Nat) :=
  match tagsSelect db.tags t c with
  | some _ => .error .integrityError
  | none =>
      .ok ({ db with tags := db.tags ++ [⟨db.next_tag_id, t, d, c⟩],
                     next_tag_id := db.next_tag_id + 1 }, db.next_tag_id)

/-- `JMdictParser._get_tag_id`: consult the cache, then the table, then
create the tag with a plain insert, caching the id found on every path. -/
def getTagId (db : DB) (t c : String) : Except PyErr (DB × Nat) :=
  match cacheLookup db.tag_cache t c with
  | some id => .ok (db, id)
  | none =>
      match tagsSelect db.tags t c with
      | some id => .ok (cachePut db t c id, id)
      | none =>
          match tagsInsertPlain db t none c with
          | .error e => .error e
          | .ok (db1, id) => .ok (cachePut db1 t c id, id)

/-- A sequence of tag resolutions through `_get_tag_id` during one load,
threading the state and recording the returned identifiers. -/
def runResolutions (db : DB) : List (String × String) → Except PyErr (DB × List Nat)
  | [] => .ok (db, [])
  | p :: ps =>
      match getTagId db p.1 p.2 with
      | .error e => .error e
      | .ok q =>
          match runResolutions q.1 ps with
          | .error e => .error e
          | .ok s => .ok (s.1, q.2 :: s.2)

/-! `JMdictParser._process_tags`. -/

/-- The part-of-speech tag set of `JMdictParser._get_pos_tags`. -/
def posTagSet : List String :=
  ["n", "v1", "v5", "adj-i", "adj-na", "adv", "prt", "conj", "pn", "int",
   "aux", "aux-v", "aux-adj", "n-adv", "n-suf", "n-pref", "vs", "vk", "vz"]

/-- Build `tag_data`: `(tag, description, 'pos' if tag in pos_tags else 'misc')`. -/
def buildTagData (tags : List (String × String)) : List (String × String × String) :=
  tags.map fun td => (td.1, td.2, if td.1 ∈ posTagSet then "pos" else "misc")

/-- One step of `executemany("INSERT OR IGNORE INTO tags ...")`: ignored when
a row with the same `(tag, category)` exists. -/
def insertTagRowIgnore (db : DB) (r : String × String × String) : DB :=
  match tagsSelect db.tags r.1 r.2.2 with
  | some _ => db
  | none =>
      { db with tags := db.tags ++ [⟨db.next_tag_id, r.1, some r.2.1, r.2.2⟩],
                next_tag_id := db.next_tag_id + 1 }

/-- The cache refresh of `_process_tags`: `SELECT id, tag, category FROM tags`
and assign `tag_cache[(tag, category)] = id` for every row. -/
def reloadTagCache (db : DB) : DB :=
  { db with tag_cache := db.tags.foldl (fun c r => ((r.tag, r.category), r.id) :: c) db.tag_cache }

/-- `JMdictParser._process_tags`: batch insert-or-ignore of the document's tag
table, a commit, and the cache refresh. -/
def processTags (c : Conn) (tags : List (String × String)) : Conn :=
  let db1 := (buildTagData tags).foldl insertTagRowIgnore c.current
  commitConn { c with current := reloadTagCache db1 }

/-! `JMdictParser._process_word_batch`, stage by stage.  Effects that have
executed stay in the state when a later statement raises, so each stage
returns its state together with an optional error. -/

/-- The comprehension `[(word['id'], int(word['id'])) for word in words]`. -/
def buildEntryData : List WordJson → Except PyErr (List (String × Nat))
  | [] => .ok []
  | w :: ws =>
      match w.id with
      | none => .error .keyError
      | some i =>
          match pyInt i with
          | .error e => .error e
          | .ok n =>
              match buildEntryData ws with
              | .error e => .error e
              | .ok rest => .ok ((i, n) :: rest)

/-- One row of `executemany("INSERT OR IGNORE INTO jmdict_entries ...")`:
ignored when the primary key `id` already exists. -/
def insertEntryIgnore (db : DB) (row : String × Nat) : DB :=
  if db.entries.any (fun r => r.1 = row.1) then db
  else { db with entries := db.entries ++ [row] }

/-- The whole `executemany` over `entry_data`. -/
def insertEntriesIgnore (db : DB) (rows : List (String × Nat)) : DB :=
  rows.foldl insertEntryIgnore db

/-- `INSERT INTO jmdict_kanji (entry_id, text, common) VALUES (?, ?, ?)`
followed by reading `cursor.lastrowid`. -/
def insertKanjiRow (db : DB) (eid t : String) (common : Bool) : DB × Nat :=
  ({ db with kanji := db.kanji ++ [⟨db.next_kanji_id, eid, t, common⟩],
             next_kanji_id := db.next_kanji_id + 1 }, db.next_kanji_id)

/-- `INSERT INTO jmdict_kana (entry_id, text, common) VALUES (?, ?, ?)`
followed by reading `cursor.lastrowid`. -/
def insertKanaRow (db : DB) (eid t : String) (common : Bool) : DB × Nat :=
  ({ db with kana := db.kana ++ [⟨db.next_kana_id, eid, t, common⟩],
             next_kana_id := db.next_kana_id + 1 }, db.next_kana_id)

/-- Generic `INSERT OR IGNORE` into a junction table whose primary key is the
whole row. -/
def insertPairIgnore {α : Type} [DecidableEq α] (l : List α) (p : α) : List α :=
  if p ∈ l then l else l ++ [p]

/-- The inner loop `for tag in xxx.get('tags', []): tag_id = self._get_tag_id(tag, 'misc');
if tag_id: data.append((owner_id, tag_id))`, shared by the kanji and kana
loops.  Returns the collected junction pairs. -/
def collectTagPairs (db : DB) (ownerId : Nat) :
    List String → DB × List (Nat × Nat) × Option PyErr
  | [] => (db, [], none)
  | tg :: tgs =>
      match getTagId db tg "misc" with
      | .error e => (db, [], some e)
      | .ok p =>
          let r := collectTagPairs p.1 ownerId tgs
          (r.1, (if p.2 ≠ 0 then [(ownerId, p.2)] else []) ++ r.2.1, r.2.2)

/-- Processing the `kanji` array of one word inside the first
`for word in words` loop: insert each writing, then resolve its tags. -/
def kanjiOfWord (db : DB) (eid : String) :
    List KanjiJson → DB × List (Nat × Nat) × Option PyErr
  | [] => (db, [], none)
  | k :: ks =>
      match k.text with
      | none => (db, [], some .keyError)
      | some t =>
          let r := insertKanjiRow db eid t k.common
          let rc := collectTagPairs r.1 r.2 k.tags
          match rc.2.2 with
          | some e => (rc.1, rc.2.1, some e)
          | none =>
              let rr := kanjiOfWord rc.1 eid ks
              (rr.1, rc.2.1 ++ rr.2.1, rr.2.2)

/-- The first `for word in words` loop of `_process_word_batch` (kanji
writings), collecting `kanji_tag_data`. -/
def kanjiLoop (db : DB) : List WordJson → DB × List (Nat × Nat) × Option PyErr
  | [] => (db, [], none)
  | w :: ws =>
      match w.id with
      | none => (db, [], some .keyError)
      | some eid =>
          let rw := kanjiOfWord db eid w.kanji
          match rw.2.2 with
          | some e => (rw.1, rw.2.1, some e)
          | none =>
              let rr := kanjiLoop rw.1 ws
              (rr.1, rw.2.1 ++ rr.2.1, rr.2.2)

/-- The comprehension over `word.get('kanji', [])` inside the `appliesToKanji
== ['*']` branch, reading each `kanji['text']`. -/
def kanjiTexts : List KanjiJson → Except PyErr (List String)
  | [] => .ok []
  | k :: ks =>
      match k.text with
      | none => .error .keyError
      | some t =>
          match kanjiTexts ks with
          | .error e => .error e
          | .ok rest => .ok (t :: rest)

/-- Processing the `kana` array of one word: insert each reading, resolve its
tags, and expand `appliesToKanji` (the `['*']` value meaning all of the
word's kanji writings).  Returns the collected `kana_tag_data` and
`kana_to_kanji_data`. -/
def kanaOfWord (db : DB) (eid : String) (wordKanji : List KanjiJson) :
    List KanaJson → DB × List (Nat × Nat) × List (Nat × String) × Option PyErr
  | [] => (db, [], [], none)
  | k :: ks =>
      match k.text with
      | none => (db, [], [], some .keyError)
      | some t =>
          let r := insertKanaRow db eid t k.common
          let rc := collectTagPairs r.1 r.2 k.tags
          match rc.2.2 with
          | some e => (rc.1, rc.2.1, [], some e)
          | none =>
              let expanded : Except PyErr (List String) :=
                if k.appliesToKanji = ["*"] then kanjiTexts wordKanji
                else .ok k.appliesToKanji
              match expanded with
              | .error e => (rc.1, rc.2.1, [], some e)
              | .ok texts =>
                  let k2k := texts.map fun tx => (r.2, tx)
                  let rr := kanaOfWord rc.1 eid wordKanji ks
                  (rr.1, rc.2.1 ++ rr.2.1, k2k ++ rr.2.2.1, rr.2.2.2)

/-- The second `for word in words` loop of `_process_word_batch` (kana
readings). -/
def kanaLoop (db : DB) :
    List WordJson → DB × List (Nat × Nat) × List (Nat × String) × Option PyErr
  | [] => (db, [], [], none)
  | w :: ws =>
      match w.id with
      | none => (db, [], [], some .keyError)
      | some eid =>
          let rw := kanaOfWord db eid w.kanji w.kana
          match rw.2.2.2 with
          | some e => (rw.1, rw.2.1, rw.2.2.1, some e)
          | none =>
              let rr := kanaLoop rw.1 ws
              (rr.1, rw.2.1 ++ rr.2.1, rw.2.2.1 ++ rr.2.2.1, rr.2.2.2)

/-- `for pos in sense.get('partOfSpeech', [])`: resolve under category
`'pos'` and insert-or-ignore into `jmdict_sense_pos` immediately. -/
def posLoop (db : DB) (sid : Nat) : List String → DB × Option PyErr
  | [] => (db, none)
  | p :: ps =>
      match getTagId db p "pos" with
      | .error e => (db, some e)
      | .ok q =>
          let db2 := if q.2 ≠ 0 then
              { q.1 with sense_pos := insertPairIgnore q.1.sense_pos (sid, q.2) }
            else q.1
          posLoop db2 sid ps

/-- `for field in sense.get('field', [])`, category `'field'`, into
`jmdict_sense_field`. -/
def fieldLoop (db : DB) (sid : Nat) : List String → DB × Option PyErr
  | [] => (db, none)
  | p :: ps =>
      match getTagId db p "field" with
      | .error e => (db, some e)
      | .ok q =>
          let db2 := if q.2 ≠ 0 then
              { q.1 with sense_field := insertPairIgnore q.1.sense_field (sid, q.2) }
            else q.1
          fieldLoop db2 sid ps

/-- `for misc in sense.get('misc', [])`, category `'misc'`, into
`jmdict_sense_misc`. -/
def miscLoop (db : DB) (sid : Nat) : List String → DB × Option PyErr
  | [] => (db, none)
  | p :: ps =>
      match getTagId db p "misc" with
      | .error e => (db, some e)
      | .ok q =>
          let db2 := if q.2 ≠ 0 then
              { q.1 with sense_misc := insertPairIgnore q.1.sense_misc (sid, q.2) }
            else q.1
          miscLoop db2 sid ps

/-- `for dialect in sense.get('dialect', [])`, category `'dialect'`, into
`jmdict_sense_dialect`. -/
def dialectLoop (db : DB) (sid : Nat) : List String → DB × Option PyErr
  | [] => (db, none)
  | p :: ps =>
      match getTagId db p "dialect" with
      | .error e => (db, some e)
      | .ok q =>
          let db2 := if q.2 ≠ 0 then
              { q.1 with sense_dialect := insertPairIgnore q.1.sense_dialect (sid, q.2) }
            else q.1
          dialectLoop db2 sid ps

/-- One collected row of `gloss_data`:
`(sense_id, gloss['text'], gloss['lang'], gloss.get('gender'), gloss.get('type'))`. -/
structure GlossParams where
  sense_id : Nat
  text : String
  lang : String
  gender : Option String
  gtype : Option String
deriving DecidableEq, Repr

/-- `for gloss in sense.get('gloss', [])`: collect the rows for the final
batched insert; `gloss['text']` and `gloss['lang']` are required. -/
def collectGlosses (sid : Nat) : List GlossJson → Except PyErr (List GlossParams)
  | [] => .ok []
  | g :: gs =>
      match g.text with
      | none => .error .keyError
      | some tx =>
          match g.lang with
          | none => .error .keyError
          | some lg =>
              match collectGlosses sid gs with
              | .error e => .error e
              | .ok rest => .ok (⟨sid, tx, lg, g.gender, g.gtype⟩ :: rest)

/-- Processing one sense: insert the sense row, then its part-of-speech,
applicability, field/misc/dialect, info, gloss collection, language sources
and cross references, in the source's statement order. -/
def processSense (db : DB) (eid : String) (s : SenseJson) :
    DB × List GlossParams × Option PyErr :=
  let sid := db.next_sense_id
  let db0 : DB := { db with senses := db.senses ++ [(sid, eid)],
                            next_sense_id := sid + 1 }
  let r1 := posLoop db0 sid s.partOfSpeech
  match r1.2 with
  | some e => (r1.1, [], some e)
  | none =>
      let db1 := r1.1
      let db2 := if s.appliesToKanji = ["*"] then db1
        else s.appliesToKanji.foldl
          (fun d tx => { d with sense_applies_to_kanji := insertPairIgnore d.sense_applies_to_kanji (sid, tx) }) db1
      let db3 := if s.appliesToKana = ["*"] then db2
        else s.appliesToKana.foldl
          (fun d tx => { d with sense_applies_to_kana := insertPairIgnore d.sense_applies_to_kana (sid, tx) }) db2
      let r4 := fieldLoop db3 sid s.field
      match r4.2 with
      | some e => (r4.1, [], some e)
      | none =>
          let r5 := miscLoop r4.1 sid s.misc
          match r5.2 with
          | some e => (r5.1, [], some e)
          | none =>
              let r6 := dialectLoop r5.1 sid s.dialect
              match r6.2 with
              | some e => (r6.1, [], some e)
              | none =>
                  let db6 := r6.1
                  let db7 := s.info.foldl
                    (fun d i => { d with sense_info := d.sense_info ++ [(sid, i)] }) db6
                  match collectGlosses sid s.gloss with
                  | .error e => (db7, [], some e)
                  | .ok gl =>
                      let db8 := s.languageSource.foldl
                        (fun d ls => { d with language_source :=
                            d.language_source ++ [⟨sid, ls.lang, ls.full, ls.wasei⟩] }) db7
                      let db9 := s.related.foldl
                        (fun d r => { d with xrefs := d.xrefs ++ [⟨sid, r, "related"⟩] }) db8
                      let db10 := s.antonym.foldl
                        (fun d r => { d with xrefs := d.xrefs ++ [⟨sid, r, "antonym"⟩] }) db9
                      (db10, gl, none)

/-- The `for sense in word.get('sense', [])` loop of one word. -/
def sensesOfWord (db : DB) (eid : String) :
    List SenseJson → DB × List GlossParams × Option PyErr
  | [] => (db, [], none)
  | s :: ss =>
      let r := processSense db eid s
      match r.2.2 with
      | some e => (r.1, r.2.1, some e)
      | none =>
          let rr := sensesOfWord r.1 eid ss
          (rr.1, r.2.1 ++ rr.2.1, rr.2.2)

/-- The third `for word in words` loop of `_process_word_batch` (senses),
collecting `gloss_data`. -/
def senseLoop (db : DB) : List WordJson → DB × List GlossParams × Option PyErr
  | [] => (db, [], none)
  | w :: ws =>
      match w.id with
      | none => (db, [], some .keyError)
      | some eid =>
          let rw := sensesOfWord db eid w.sense
          match rw.2.2 with
          | some e => (rw.1, rw.2.1, some e)
          | none =>
              let rr := senseLoop rw.1 ws
              (rr.1, rw.2.1 ++ rr.2.1, rr.2.2)

/-- One row of the final
`executemany("INSERT INTO jmdict_gloss (sense_id, text, lang, gender, type) ...")`.
A plain insert on `jmdict_gloss` fires the `jmdict_gloss_ai` trigger when it
exists, projecting `(new.id, new.text)` into the FTS index. -/
def insertGlossRow (db : DB) (g : GlossParams) : DB :=
  let gid := db.next_gloss_id
  let db1 : DB := { db with
    glosses := db.glosses ++ [⟨gid, g.sense_id, g.text, g.lang, g.gender, g.gtype⟩],
    next_gloss_id := gid + 1 }
  if db1.gloss_triggers then { db1 with gloss_fts := db1.gloss_fts ++ [(gid, g.text)] }
  else db1

/-- `JMdictParser._process_word_batch`. -/
def processWordBatch (db : DB) (words : List WordJson) : DB × Option PyErr :=
  match buildEntryData words with
  | .error e => (db, some e)
  | .ok ed =>
      let dbA := insertEntriesIgnore db ed
      let rB := kanjiLoop dbA words
      match rB.2.2 with
      | some e => (rB.1, some e)
      | none =>
          let dbC := { rB.1 with kanji_tags := rB.2.1.foldl insertPairIgnore rB.1.kanji_tags }
          let rD := kanaLoop dbC words
          match rD.2.2.2 with
          | some e => (rD.1, some e)
          | none =>
              let dbE := { rD.1 with kana_tags := rD.2.1.foldl insertPairIgnore rD.1.kana_tags }
              let dbF := { dbE with kana_to_kanji := rD.2.2.1.foldl insertPairIgnore dbE.kana_to_kanji }
              let rG := senseLoop dbF words
              match rG.2.2 with
              | some e => (rG.1, some e)
              | none =>
                  (rG.2.1.foldl insertGlossRow rG.1, none)

/-! Trigger DDL, `parse_file`, and the loader entry point. -/

/-- The three `DROP TRIGGER IF EXISTS jmdict_gloss_ai/ad/au` statements. -/
def dropGlossTriggersDb (db : DB) : DB :=
  { db with gloss_triggers := false }

/-- `JMdictParser._recreate_fts_triggers`: the three
`CREATE TRIGGER IF NOT EXISTS jmdict_gloss_ai/ad/au` statements. -/
def recreateFtsTriggersDb (db : DB) : DB :=
  { db with gloss_triggers := true }

/-- The slicing `words[i:i+batch_size]` for `i in range(0, total, batch_size)`,
written with structural fuel so that it evaluates inside the kernel; callers
only use positive batch sizes (`range` with step 0 raises). -/
def chunksGo (b : Nat) : Nat → List WordJson → List (List WordJson)
  | 0, _ => []
  | _, [] => []
  | fuel + 1, l => l.take b :: chunksGo b fuel (l.drop b)

/-- Split a word list into batches of `b`. -/
def chunks (b : Nat) (l : List WordJson) : List (List WordJson) :=
  chunksGo b l.length l

/-- The batch loop of `parse_file`: process a batch, commit it, begin the next
transaction.  An exception stops the loop, keeping the partial effects of the
failing batch in the open transaction. -/
def runBatches (c : Conn) : List (List WordJson) → Conn × Option PyErr
  | [] => (c, none)
  | b :: bs =>
      let r := processWordBatch c.current b
      match r.2 with
      | some e => ({ c with current := r.1 }, some e)
      | none => runBatches (commitConn { c with current := r.1 }) bs

/-- `JMdictParser.parse_file` on an already-parsed document: process the tag
table, turn foreign keys off, drop the FTS triggers, run the batch loop, and
then the `finally` block — `conn.commit()` (committing the open transaction,
including the partial effects of a failing batch), `PRAGMA foreign_keys = ON`,
and trigger recreation (self-committing DDL).  A zero batch size makes
`range` raise `ValueError` before any batch runs.  `_count_entries` only
logs and is omitted. -/
def parseFile (c : Conn) (doc : JmdictDoc) (b : Nat) : Conn × Option PyErr :=
  let c1 := processTags c doc.tags
  let c2 : Conn := { c1 with fkEnabled := false,
                             current := dropGlossTriggersDb c1.current }
  let r := if b = 0 then (c2, some PyErr.valueError)
           else runBatches c2 (chunks b doc.words)
  let c4 := commitConn r.1
  let c5 : Conn := { c4 with fkEnabled := true }
  (commitConn { c5 with current := recreateFtsTriggersDb c5.current }, r.2)

/-- `DatabaseSchema.rebuild_fts_index`: issue the FTS5 `'rebuild'` directive
against `jmdict_gloss_fts` (raising `OperationalError` when that virtual table
does not exist), then against `kanjidic_meanings_fts` inside a
`try/except sqlite3.OperationalError: pass`.  A rebuild repopulates the index
from current base-table content. -/
def rebuildFtsIndex (db : DB) : Except PyErr DB :=
  if db.gloss_fts_exists = false then .error .operationalError
  else
    let db1 : DB := { db with gloss_fts := db.glosses.map fun g => (g.id, g.text) }
    if db1.meanings_fts_exists then
      .ok { db1 with meanings_fts := db1.meanings.map fun m => (m.id, m.value) }
    else .ok db1

/-- The inline kanjidic FTS rebuild of `DictionaryLoader.load_kanjidic`
(lines 77-82): the `'rebuild'` directive and commit inside a `try`, with
`sqlite3.OperationalError` caught and reported through `logger.warning`.
Returns the connection and the list of emitted warnings. -/
def kanjidicRebuildStep (c : Conn) : Conn × List String :=
  if c.current.meanings_fts_exists then
    (commitConn { c with current :=
        { c.current with meanings_fts := c.current.meanings.map fun m => (m.id, m.value) } }, [])
  else (c, ["Could not rebuild Kanjidic FTS index"])

/-- `DictionaryLoader.load_jmdict`: `parse_file` with the default batch size,
then `DatabaseSchema.rebuild_fts_index` (which ends in `conn.commit()`).  An
exception from either step propagates. -/
def loadJmdict (c : Conn) (doc : JmdictDoc) : Conn × Option PyErr :=
  let r := parseFile c doc 1000
  match r.2 with
  | some e => (r.1, some e)
  | none =>
      match rebuildFtsIndex r.1.current with
      | .error e => (r.1, some e)
      | .ok db => (commitConn { r.1 with current := db }, none)

/-- `DatabaseSchema.create_tables` (with `_create_jmdict_tables`,
`_create_kanjidic_tables` and `_create_indexes`): every base table, index and
trigger is created with IF NOT EXISTS (leaving existing rows and ids alone),
but `_create_indexes` runs `DROP TABLE IF EXISTS jmdict_gloss_fts` /
`kanjidic_meanings_fts` before recreating each FTS virtual table, so both FTS
indexes come out existing and empty; `conn.commit()` ends the call. -/
def createTables (c : Conn) : Conn :=
  commitConn { c with current :=
    { c.current with
        gloss_fts_exists := true, gloss_fts := [], gloss_triggers := true,
        meanings_fts_exists := true, meanings_fts := [], meanings_triggers := true } }

/-! The full-text index as seen by queries, and the trigger-built index used
to state rebuild equivalence. -/

/-- The unicode61 tokenizer restricted to the space-separated ASCII texts
used in this development. -/
def tokenizeChars : List Char → List Char → List String
  | [], acc => if acc.isEmpty then [] else [String.mk acc.reverse]
  | ch :: rest, acc =>
      if ch = ' ' then
        (if acc.isEmpty then [] else [String.mk acc.reverse]) ++ tokenizeChars rest []
      else tokenizeChars rest (ch :: acc)

/-- Tokenize one indexed text. -/
def tokenize (s : String) : List String :=
  tokenizeChars s.data []

/-- A full-text `MATCH` query for one token: the rowids of the indexed rows
whose text contains the token. -/
def ftsMatch (fts : List (Nat × String)) (tok : String) : List Nat :=
  (fts.filter fun e => tok ∈ tokenize e.2).map fun e => e.1

/-- The index produced by inserting gloss rows one by one with the
`jmdict_gloss_ai` trigger active: each insert appends `(new.id, new.text)`. -/
def glossFtsViaTriggers (fts : List (Nat × String)) : List GlossRow → List (Nat × String)
  | [] => fts
  | g :: gs => glossFtsViaTriggers (fts ++ [(g.id, g.text)]) gs

/-- The index produced by inserting meaning rows one by one with the
`kanjidic_meanings_ai` trigger active. -/
def meaningsFtsViaTriggers (fts : List (Nat × String)) : List MeaningRow → List (Nat × String)
  | [] => fts
  | m :: ms => meaningsFtsViaTriggers (fts ++ [(m.id, m.value)]) ms

/-! `Kanjidic2Parser._process_character_batch`. -/

/-- The `misc` record of a character; `strokeCounts` is read with
`misc.get('strokeCounts', [None])`, so the `Option` distinguishes an absent
key from a present (possibly empty) list. -/
structure MiscJson where
  grade : Option Nat := none
  strokeCounts : Option (List Nat) := none
  frequency : Option Nat := none
  jlptLevel : Option Nat := none
  variants : List (String × String) := []
  radicalNames : List String := []
deriving DecidableEq, Repr

/-- One reading/meaning group; entries carry their required keys directly. -/
structure RMGroupJson where
  readings : List (String × String) := []
  meanings : List (String × String) := []
deriving DecidableEq, Repr

/-- The `readingMeaning` record of a character. -/
structure RMJson where
  groups : List RMGroupJson := []
  nanori : List String := []
deriving DecidableEq, Repr

/-- One element of the document's `characters` array.  The sub-arrays whose
required keys the claims never exercise are shape-typed as tuples of the
accessed fields. -/
structure CharJson where
  literal : String := ""
  misc : Option MiscJson := none
  codepoints : List (String × String) := []
  radicals : List (String × Nat) := []
  dictionaryReferences : List (String × String) := []
  queryCodes : List (String × String) := []
  readingMeaning : Option RMJson := none
deriving DecidableEq, Repr

/-- The expression `misc.get('strokeCounts', [None])[0]`: `None` when the key
is absent (`[None][0]`), the head when the list is nonempty, and an
`IndexError` when the key maps to an empty list. -/
def strokeCountsHead : Option (List Nat) → Except PyErr (Option Nat)
  | none => .ok none
  | some [] => .error .indexError
  | some (n :: _) => .ok (some n)

/-- The `character_data` comprehension of `_process_character_batch`, built
in full before any insert runs. -/
def buildCharacterData : List CharJson → Except PyErr (List CharRow)
  | [] => .ok []
  | ch :: chs =>
      let m := ch.misc.getD {}
      match strokeCountsHead m.strokeCounts with
      | .error e => .error e
      | .ok sc =>
          match buildCharacterData chs with
          | .error e => .error e
          | .ok rest => .ok (⟨ch.literal, m.grade, sc, m.frequency, m.jlptLevel⟩ :: rest)

/-- One row of `executemany("INSERT OR IGNORE INTO kanjidic_characters ...")`:
ignored when the primary key `literal` already exists. -/
def insertCharacterIgnore (db : DB) (r : CharRow) : DB :=
  if db.characters.any (fun x => x.literal = r.literal) then db
  else { db with characters := db.characters ++ [r] }

/-- One row of the meanings insert; `kanjidic_meanings` has an autoincrement
primary key and no unique constraint, so INSERT OR IGNORE always inserts; the
`kanjidic_meanings_ai` trigger projects the row into the FTS index when it
exists. -/
def insertMeaningRow (db : DB) (m : String × String × String) : DB :=
  let mid := db.next_meaning_id
  let db1 : DB := { db with meanings := db.meanings ++ [⟨mid, m.1, m.2.1, m.2.2⟩],
                            next_meaning_id := mid + 1 }
  if db1.meanings_triggers then
    { db1 with meanings_fts := db1.meanings_fts ++ [(mid, m.2.2)] }
  else db1

/-- `Kanjidic2Parser._process_character_batch`: build `character_data`
(raising before any insert when a stroke-count list is empty), insert the
characters, then collect and insert every child table in the source's order.
The remaining child tables have only an autoincrement primary key, so their
INSERT OR IGNORE statements always append. -/
def processCharacterBatch (db : DB) (chars : List CharJson) : DB × Option PyErr :=
  match buildCharacterData chars with
  | .error e => (db, some e)
  | .ok rows =>
      let db1 := rows.foldl insertCharacterIgnore db
      let db2 : DB := { db1 with codepoints := db1.codepoints ++
        (chars.flatMap fun ch => ch.codepoints.map fun p => (ch.literal, p.1, p.2)) }
      let db3 : DB := { db2 with radicals := db2.radicals ++
        (chars.flatMap fun ch => ch.radicals.map fun p => (ch.literal, p.1, p.2)) }
      let db4 : DB := { db3 with variants := db3.variants ++
        (chars.flatMap fun ch => (ch.misc.getD {}).variants.map fun p => (ch.literal, p.1, p.2)) }
      let db5 : DB := { db4 with radical_names := db4.radical_names ++
        (chars.flatMap fun ch => (ch.misc.getD {}).radicalNames.map fun n => (ch.literal, n)) }
      let db6 : DB := { db5 with dict_references := db5.dict_references ++
        (chars.flatMap fun ch => ch.dictionaryReferences.map fun p => (ch.literal, p.1, p.2)) }
      let db7 : DB := { db6 with query_codes := db6.query_codes ++
        (chars.flatMap fun ch => ch.queryCodes.map fun p => (ch.literal, p.1, p.2)) }
      let db8 : DB := { db7 with readings := db7.readings ++
        (chars.flatMap fun ch => (ch.readingMeaning.getD {}).groups.flatMap fun g =>
          g.readings.map fun p => (ch.literal, p.1, p.2)) }
      let meaningData := chars.flatMap fun ch => (ch.readingMeaning.getD {}).groups.flatMap fun g =>
          g.meanings.map fun p => (ch.literal, p.1, p.2)
      let db9 := meaningData.foldl insertMeaningRow db8
      let db10 : DB := { db9 with nanori := db9.nanori ++
        (chars.flatMap fun ch => (ch.readingMeaning.getD {}).nanori.map fun n => (ch.literal, n)) }
      (db10, none)

/-! The metadata insert of `DataLoader.load_jmdict_data`
(`src/DatabaseGeneration/data_loader.py`, lines 48-51). -/

/-- Row of `jmdict_metadata` in the DatabaseGeneration schema:
`(id INTEGER PRIMARY KEY, version, dict_date, common_only, tags)`. -/
structure JmdictMetaRow where
  id : Nat
  version : String
  dict_date : String
  common_only : Bool
  tags : String
deriving DecidableEq, Repr

/-- The plain `INSERT INTO jmdict_metadata (id, ...) VALUES (1, ...)`:
raises `IntegrityError` when a row with primary key 1 already exists. -/
def insertJmdictMetadata (rows : List JmdictMetaRow) (version dict_date : String)
    (common_only : Bool) (tags : String) : Except PyErr (List JmdictMetaRow) :=
  if rows.any (fun r => r.id = 1) then .error .integrityError
  else .ok (rows ++ [⟨1, version, dict_date, common_only, tags⟩])

/-! The tag resolver under the conflicting-insert interleaving posited by the
spec's failure handling (§4.2). -/

/-- One `INSERT OR IGNORE INTO tags` of a tag with no description. -/
def insertTagIgnoreNoDesc (db : DB) (t c : String) : DB :=
  match tagsSelect db.tags t c with
  | some _ => db
  | none =>
      { db with tags := db.tags ++ [⟨db.next_tag_id, t, none, c⟩],
                next_tag_id := db.next_tag_id + 1 }

/-- `_get_tag_id` run under the interleaving the spec's failure note
describes: after the resolver's cache miss and table miss, a concurrent or
re-entrant insert of the same `(tag, category)` pair lands (its own plain
insert, which succeeds against the miss state), and only then does the
resolver execute its own insert statement.  The primitives are exactly those
of `getTagId`; only the interleaving point is added. -/
def getTagIdRaced (db : DB) (t c : String) : Except PyErr (DB × Nat) :=
  match cacheLookup db.tag_cache t c with
  | some id => .ok (db, id)
  | none =>
      match tagsSelect db.tags t c with
      | some id => .ok (cachePut db t c id, id)
      | none =>
          match tagsInsertPlain db t none c with
          | .error e => .error e
          | .ok (db1, _) =>
              match tagsInsertPlain db1 t none c with
              | .error e => .error e
              | .ok (db2, id) => .ok (cachePut db2 t c id, id)

/-- Modelled from the spec: a resolver whose miss-path insertion is
insert-or-ignore followed by a re-read of the tags table ("insertion
conflicts (duplicate code+category) are resolved by insert-or-ignore followed
by a re-read"), run under the same conflicting interleaving as
`getTagIdRaced`.  The re-read cannot miss after the ignore-insert; the
unreachable branch reports `OperationalError`. -/
def getTagIdSpecRaced (db : DB) (t c : String) : Except PyErr (DB × Nat) :=
  match cacheLookup db.tag_cache t c with
  | some id => .ok (db, id)
  | none =>
      match tagsSelect db.tags t c with
      | some id => .ok (cachePut db t c id, id)
      | none =>
          match tagsInsertPlain db t none c with
          | .error e => .error e
          | .ok (db1, _) =>
              let db2 := insertTagIgnoreNoDesc db1 t c
              match tagsSelect db2.tags t c with
              | some id => .ok (cachePut db2 t c id, id)
              | none => .error .operationalError

/-! Concrete documents used by the counterexamples and witnesses. -/

/-- A one-word document: id "10" with the single kanji writing 水. -/
def doc1 : JmdictDoc :=
  { words := [{ id := some "10", kanji := [{ text := some "水" }] }] }

/-- A well-formed word used in the failing-batch scenario. -/
def word1 : WordJson :=
  { id := some "1", kanji := [{ text := some "一" }] }

/-- A malformed word: its kanji writing is fine, but its gloss has no `lang`
key, so the sense pass raises after the kanji row has been executed. -/
def word2bad : WordJson :=
  { id := some "2", kanji := [{ text := some "二" }],
    sense := [{ gloss := [{ text := some "x" }] }] }

/-- A two-word document whose second one-word batch fails mid-way. -/
def doc2 : JmdictDoc := { words := [word1, word2bad] }

/-- A one-word document with one English gloss, for the rebuild-equivalence
witness. -/
def doc3 : JmdictDoc :=
  { words := [{ id := some "5",
                sense := [{ gloss := [{ text := some "water", lang := some "eng" }] }] }] }

/-- The concrete word entry of the spec's functional scenario. -/
def word6 : WordJson :=
  { id := some "1000000",
    kanji := [{ text := some "食べる", common := true }],
    kana := [{ text := some "たべる", common := true, appliesToKanji := ["*"] }],
    sense := [{ partOfSpeech := ["v1"],
                gloss := [{ lang := some "eng", text := some "to eat" }] }] }

/-- The document holding just that word. -/
def doc6 : JmdictDoc := { words := [word6] }

/-! Lemmas about the tag resolver. -/

/-- A cache hit returns the cached id and leaves the state unchanged. -/
theorem getTagId_cache_hit (db : DB) (t c : String) (id : Nat)
    (h : cacheLookup db.tag_cache t c = some id) :
    getTagId db t c = .ok (db, id) := by
  unfold getTagId
  rw [h]

/-- Every successful resolution leaves its pair cached under the returned id. -/
theorem getTagId_caches (db : DB) (t c : String) (db' : DB) (id : Nat)
    (h : getTagId db t c = .ok (db', id)) :
    cacheLookup db'.tag_cache t c = some id := by
  unfold getTagId at h
  cases hc : cacheLookup db.tag_cache t c with
  | some v =>
      rw [hc] at h
      obtain ⟨rfl, rfl⟩ : db = db' ∧ v = id := by
        simpa using h
      exact hc
  | none =>
      rw [hc] at h
      cases hs : tagsSelect db.tags t c with
      | some v =>
          rw [hs] at h
          obtain ⟨rfl, rfl⟩ : cachePut db t c v = db' ∧ v = id := by
            simpa using h
          simp [cachePut, cacheLookup]
      | none =>
          rw [hs] at h
          unfold tagsInsertPlain at h
          rw [hs] at h
          obtain ⟨rfl, rfl⟩ :
              cachePut { db with tags := db.tags ++ [⟨db.next_tag_id, t, none, c⟩],
                                 next_tag_id := db.next_tag_id + 1 } t c db.next_tag_id = db'
              ∧ db.next_tag_id = id := by
            simpa using h
          simp [cachePut, cacheLookup]

/-- A successful resolution never removes or overwrites existing cache
entries: the resolver only writes to the cache on a miss. -/
theorem getTagId_cache_mono (db : DB) (t c : String) (db' : DB) (id : Nat)
    (t' c' : String) (w : Nat)
    (h : getTagId db t c = .ok (db', id))
    (hw : cacheLookup db.tag_cache t' c' = some w) :
    cacheLookup db'.tag_cache t' c' = some w := by
  unfold getTagId at h
  cases hc : cacheLookup db.tag_cache t c with
  | some v =>
      rw [hc] at h
      obtain ⟨rfl, rfl⟩ : db = db' ∧ v = id := by simpa using h
      exact hw
  | none =>
      rw [hc] at h
      have hne : ¬ ((t, c) = (t', c')) := by
        intro he
        obtain ⟨rfl, rfl⟩ : t = t' ∧ c = c' := by simpa using he
        rw [hc] at hw
        exact Option.noConfusion hw
      cases hs : tagsSelect db.tags t c with
      | some v =>
          rw [hs] at h
          obtain ⟨rfl, rfl⟩ : cachePut db t c v = db' ∧ v = id := by simpa using h
          simpa [cachePut, cacheLookup, hne] using hw
      | none =>
          rw [hs] at h
          unfold tagsInsertPlain at h
          rw [hs] at h
          obtain ⟨rfl, rfl⟩ :
              cachePut { db with tags := db.tags ++ [⟨db.next_tag_id, t, none, c⟩],
                                 next_tag_id := db.next_tag_id + 1 } t c db.next_tag_id = db'
              ∧ db.next_tag_id = id := by
            simpa using h
          simpa [cachePut, cacheLookup, hne] using hw

/-- Along a successful resolution sequence, any resolution of a pair that is
already cached under `w` returns `w`. -/
theorem runResolutions_consistent (ps : List (String × String)) :
    ∀ db db' ids, runResolutions db ps = .ok (db', ids) →
    ∀ t c w, cacheLookup db.tag_cache t c = some w →
    ∀ pr ∈ ps.zip ids, pr.1 = (t, c) → pr.2 = w := by
  induction ps with
  | nil =>
      intro db db' ids h t c w _ pr hpr
      obtain ⟨rfl, rfl⟩ : db = db' ∧ [] = ids := by
        simpa [runResolutions] using h
      simp at hpr
  | cons p ps ih =>
      intro db db' ids h t c w hw pr hpr hfst
      unfold runResolutions at h
      cases hg : getTagId db p.1 p.2 with
      | error e => simp only [hg] at h; exact Except.noConfusion h
      | ok q =>
          simp only [hg] at h
          cases hr : runResolutions q.1 ps with
          | error e => simp only [hr] at h; exact Except.noConfusion h
          | ok s =>
              simp only [hr] at h
              obtain ⟨rfl, rfl⟩ : s.1 = db' ∧ q.2 :: s.2 = ids := by simpa using h
              rw [List.zip_cons_cons] at hpr
              rcases List.mem_cons.mp hpr with hhead | htail
              · subst hhead
                simp only at hfst
                rw [hfst] at hg
                rw [getTagId_cache_hit db t c w hw] at hg
                have hq : (db, w) = q := by simpa using hg
                simp [← hq]
              · have hw1 : cacheLookup q.1.tag_cache t c = some w :=
                  getTagId_cache_mono db p.1 p.2 q.1 q.2 t c w hg hw
                exact ih q.1 s.1 s.2 hr t c w hw1 pr htail hfst

/-! Lemmas about state components the batch stages do not touch. -/

/-- A successful resolution only writes to the tags table and the cache; the
kanji table is untouched. -/
theorem getTagId_kanji (db : DB) (t c : String) (db' : DB) (id : Nat)
    (h : getTagId db t c = .ok (db', id)) : db'.kanji = db.kanji := by
  unfold getTagId at h
  cases hc : cacheLookup db.tag_cache t c with
  | some v =>
      rw [hc] at h
      obtain ⟨rfl, rfl⟩ : db = db' ∧ v = id := by simpa using h
      rfl
  | none =>
      rw [hc] at h
      cases hs : tagsSelect db.tags t c with
      | some v =>
          rw [hs] at h
          obtain ⟨rfl, rfl⟩ : cachePut db t c v = db' ∧ v = id := by simpa using h
          rfl
      | none =>
          rw [hs] at h
          unfold tagsInsertPlain at h
          rw [hs] at h
          obtain ⟨rfl, rfl⟩ :
              cachePut { db with tags := db.tags ++ [⟨db.next_tag_id, t, none, c⟩],
                                 next_tag_id := db.next_tag_id + 1 } t c db.next_tag_id = db'
              ∧ db.next_tag_id = id := by
            simpa using h
          rfl

/-- `collectTagPairs` never touches the kanji table. -/
theorem collectTagPairs_kanji (ownerId : Nat) :
    ∀ (tgs : List String) (db : DB),
      (collectTagPairs db ownerId tgs).1.kanji = db.kanji := by
  intro tgs
  induction tgs with
  | nil => intro db; rfl
  | cons tg tgs ih =>
      intro db
      unfold collectTagPairs
      cases hg : getTagId db tg "misc" with
      | error e => rfl
      | ok p =>
          show (collectTagPairs p.1 ownerId tgs).1.kanji = db.kanji
          rw [ih p.1, getTagId_kanji db tg "misc" p.1 p.2 hg]

/-- Number of kanji writings in a word list. -/
def sumKanji (ws : List WordJson) : Nat :=
  (ws.map fun w => w.kanji.length).sum

/-- A successful pass over one word's kanji writings appends exactly one row
per writing. -/
theorem kanjiOfWord_kanji (eid : String) :
    ∀ (ks : List KanjiJson) (db : DB),
      (kanjiOfWord db eid ks).2.2 = none →
      (kanjiOfWord db eid ks).1.kanji.length = db.kanji.length + ks.length := by
  intro ks
  induction ks with
  | nil => intro db _; rfl
  | cons k ks ih =>
      intro db h
      unfold kanjiOfWord at h ⊢
      rcases Option.eq_none_or_eq_some k.text with hk | ⟨t, hk⟩
      · rw [hk] at h
        simp at h
      · rw [hk] at h ⊢
        simp only at h ⊢
        rcases Option.eq_none_or_eq_some (collectTagPairs (insertKanjiRow db eid t k.common).1
            (insertKanjiRow db eid t k.common).2 k.tags).2.2 with he | ⟨e, he⟩
        · rw [he] at h ⊢
          simp only at h ⊢
          have h1 := ih (collectTagPairs (insertKanjiRow db eid t k.common).1
              (insertKanjiRow db eid t k.common).2 k.tags).1 h
          rw [h1, collectTagPairs_kanji]
          simp [insertKanjiRow]
          omega
        · rw [he] at h
          simp at h

/-- A successful kanji loop over a batch appends `sumKanji` rows. -/
theorem kanjiLoop_kanji :
    ∀ (ws : List WordJson) (db : DB),
      (kanjiLoop db ws).2.2 = none →
      (kanjiLoop db ws).1.kanji.length = db.kanji.length + sumKanji ws := by
  intro ws
  induction ws with
  | nil => intro db _; simp [kanjiLoop, sumKanji]
  | cons w ws ih =>
      intro db h
      unfold kanjiLoop at h ⊢
      rcases Option.eq_none_or_eq_some w.id with hid | ⟨eid, hid⟩
      · rw [hid] at h
        simp at h
      · rw [hid] at h ⊢
        simp only at h ⊢
        rcases Option.eq_none_or_eq_some (kanjiOfWord db eid w.kanji).2.2 with he | ⟨e, he⟩
        · rw [he] at h ⊢
          simp only at h ⊢
          have h1 := ih (kanjiOfWord db eid w.kanji).1 h
          rw [h1, kanjiOfWord_kanji eid w.kanji db he]
          simp [sumKanji]
          omega
        · rw [he] at h
          simp at h

/-- Case helper for `Except` values. -/
theorem except_eq_error_or_ok {ε α : Type} (x : Except ε α) :
    (∃ e, x = .error e) ∨ (∃ a, x = .ok a) := by
  cases x with
  | error e => exact Or.inl ⟨e, rfl⟩
  | ok a => exact Or.inr ⟨a, rfl⟩

/-- A fold whose step leaves the kanji table alone leaves it alone. -/
theorem foldl_kanji {α : Type} (f : DB → α → DB) (hf : ∀ d a, (f d a).kanji = d.kanji) :
    ∀ (l : List α) (db : DB), (l.foldl f db).kanji = db.kanji := by
  intro l
  induction l with
  | nil => intro db; rfl
  | cons a l ih => intro db; rw [List.foldl_cons, ih, hf]

/-- The entries insert leaves the kanji table alone. -/
theorem insertEntriesIgnore_kanji (rows : List (String × Nat)) (db : DB) :
    (insertEntriesIgnore db rows).kanji = db.kanji := by
  refine foldl_kanji _ ?_ rows db
  intro d a
  unfold insertEntryIgnore
  split <;> rfl

/-- The kana pass leaves the kanji table alone. -/
theorem kanaOfWord_kanji (eid : String) (wordKanji : List KanjiJson) :
    ∀ (ks : List KanaJson) (db : DB),
      (kanaOfWord db eid wordKanji ks).1.kanji = db.kanji := by
  intro ks
  induction ks with
  | nil => intro db; rfl
  | cons k ks ih =>
      intro db
      unfold kanaOfWord
      rcases Option.eq_none_or_eq_some k.text with hk | ⟨t, hk⟩
      · rw [hk]
      · rw [hk]
        simp only
        rcases Option.eq_none_or_eq_some (collectTagPairs (insertKanaRow db eid t k.common).1
            (insertKanaRow db eid t k.common).2 k.tags).2.2 with he | ⟨e, he⟩
        · rw [he]
          simp only
          rcases except_eq_error_or_ok
              (if k.appliesToKanji = ["*"] then kanjiTexts wordKanji
               else .ok k.appliesToKanji) with ⟨e, hex⟩ | ⟨texts, hex⟩
          · rw [hex]
            simp only
            rw [collectTagPairs_kanji]
            rfl
          · rw [hex]
            simp only
            rw [ih, collectTagPairs_kanji]
            rfl
        · rw [he]
          simp only
          rw [collectTagPairs_kanji]
          rfl

/-- The kana loop leaves the kanji table alone. -/
theorem kanaLoop_kanji :
    ∀ (ws : List WordJson) (db : DB), (kanaLoop db ws).1.kanji = db.kanji := by
  intro ws
  induction ws with
  | nil => intro db; rfl
  | cons w ws ih =>
      intro db
      unfold kanaLoop
      rcases Option.eq_none_or_eq_some w.id with hid | ⟨eid, hid⟩
      · rw [hid]
      · rw [hid]
        simp only
        rcases Option.eq_none_or_eq_some (kanaOfWord db eid w.kanji w.kana).2.2.2 with he | ⟨e, he⟩
        · rw [he]
          simp only
          rw [ih, kanaOfWord_kanji]
        · rw [he]
          simp only
          rw [kanaOfWord_kanji]

/-- The part-of-speech loop leaves the kanji table alone. -/
theorem posLoop_kanji (sid : Nat) :
    ∀ (ps : List String) (db : DB), (posLoop db sid ps).1.kanji = db.kanji := by
  intro ps
  induction ps with
  | nil => intro db; rfl
  | cons p ps ih =>
      intro db
      unfold posLoop
      rcases except_eq_error_or_ok (getTagId db p "pos") with ⟨e, hg⟩ | ⟨q, hg⟩
      · rw [hg]
      · rw [hg]
        simp only
        rw [ih]
        have hq := getTagId_kanji db p "pos" q.1 q.2 hg
        split <;> simpa using hq

/-- The field-tag loop leaves the kanji table alone. -/
theorem fieldLoop_kanji (sid : Nat) :
    ∀ (ps : List String) (db : DB), (fieldLoop db sid ps).1.kanji = db.kanji := by
  intro ps
  induction ps with
  | nil => intro db; rfl
  | cons p ps ih =>
      intro db
      unfold fieldLoop
      rcases except_eq_error_or_ok (getTagId db p "field") with ⟨e, hg⟩ | ⟨q, hg⟩
      · rw [hg]
      · rw [hg]
        simp only
        rw [ih]
        have hq := getTagId_kanji db p "field" q.1 q.2 hg
        split <;> simpa using hq

/-- The misc-tag loop leaves the kanji table alone. -/
theorem miscLoop_kanji (sid : Nat) :
    ∀ (ps : List String) (db : DB), (miscLoop db sid ps).1.kanji = db.kanji := by
  intro ps
  induction ps with
  | nil => intro db; rfl
  | cons p ps ih =>
      intro db
      unfold miscLoop
      rcases except_eq_error_or_ok (getTagId db p "misc") with ⟨e, hg⟩ | ⟨q, hg⟩
      · rw [hg]
      · rw [hg]
        simp only
        rw [ih]
        have hq := getTagId_kanji db p "misc" q.1 q.2 hg
        split <;> simpa using hq

/-- The dialect-tag loop leaves the kanji table alone. -/
theorem dialectLoop_kanji (sid : Nat) :
    ∀ (ps : List String) (db : DB), (dialectLoop db sid ps).1.kanji = db.kanji := by
  intro ps
  induction ps with
  | nil => intro db; rfl
  | cons p ps ih =>
      intro db
      unfold dialectLoop
      rcases except_eq_error_or_ok (getTagId db p "dialect") with ⟨e, hg⟩ | ⟨q, hg⟩
      · rw [hg]
      · rw [hg]
        simp only
        rw [ih]
        have hq := getTagId_kanji db p "dialect" q.1 q.2 hg
        split <;> simpa using hq

/-- Sense decomposition leaves the kanji table alone. -/
theorem processSense_kanji (eid : String) (s : SenseJson) (db : DB) :
    (processSense db eid s).1.kanji = db.kanji := by
  have hfold : ∀ (α : Type) (f : DB → α → DB), (∀ d a, (f d a).kanji = d.kanji) →
      ∀ (l : List α) (dbx : DB), (List.foldl f dbx l).kanji = dbx.kanji :=
    fun α f hf l dbx => foldl_kanji f hf l dbx
  unfold processSense
  simp only
  rcases Option.eq_none_or_eq_some
      (posLoop { db with senses := db.senses ++ [(db.next_sense_id, eid)],
                         next_sense_id := db.next_sense_id + 1 } db.next_sense_id
        s.partOfSpeech).2 with h1 | ⟨e, h1⟩
  · rw [h1]
    simp only
    generalize hdb1 :
        (posLoop { db with senses := db.senses ++ [(db.next_sense_id, eid)],
                           next_sense_id := db.next_sense_id + 1 } db.next_sense_id
          s.partOfSpeech).1 = db1
    have hk1 : db1.kanji = db.kanji := by rw [← hdb1, posLoop_kanji]
    have hk2 : ∀ dbx : DB,
        (if s.appliesToKanji = ["*"] then dbx
         else s.appliesToKanji.foldl (fun d tx =>
          { d with sense_applies_to_kanji := insertPairIgnore d.sense_applies_to_kanji (db.next_sense_id, tx) }) dbx).kanji
        = dbx.kanji := by
      intro dbx
      split
      · rfl
      · refine hfold _ _ ?_ _ dbx
        intro d a
        rfl
    have hk3 : ∀ dbx : DB,
        (if s.appliesToKana = ["*"] then dbx
         else s.appliesToKana.foldl (fun d tx =>
          { d with sense_applies_to_kana := insertPairIgnore d.sense_applies_to_kana (db.next_sense_id, tx) }) dbx).kanji
        = dbx.kanji := by
      intro dbx
      split
      · rfl
      · refine hfold _ _ ?_ _ dbx
        intro d a
        rfl
    generalize hdb3 :
        (if s.appliesToKana = ["*"] then
          (if s.appliesToKanji = ["*"] then db1
           else s.appliesToKanji.foldl (fun d tx =>
            { d with sense_applies_to_kanji := insertPairIgnore d.sense_applies_to_kanji (db.next_sense_id, tx) }) db1)
         else s.appliesToKana.foldl (fun d tx =>
          { d with sense_applies_to_kana := insertPairIgnore d.sense_applies_to_kana (db.next_sense_id, tx) })
          (if s.appliesToKanji = ["*"] then db1
           else s.appliesToKanji.foldl (fun d tx =>
            { d with sense_applies_to_kanji := insertPairIgnore d.sense_applies_to_kanji (db.next_sense_id, tx) }) db1)) = db3
    have hk13 : db3.kanji = db.kanji := by
      rw [← hdb3, hk3, hk2, hk1]
    rcases Option.eq_none_or_eq_some (fieldLoop db3 db.next_sense_id s.field).2 with h4 | ⟨e, h4⟩
    · rw [h4]
      simp only
      generalize hdb4 : (fieldLoop db3 db.next_sense_id s.field).1 = db4
      have hk4 : db4.kanji = db.kanji := by rw [← hdb4, fieldLoop_kanji, hk13]
      rcases Option.eq_none_or_eq_some (miscLoop db4 db.next_sense_id s.misc).2 with h5 | ⟨e, h5⟩
      · rw [h5]
        simp only
        generalize hdb5 : (miscLoop db4 db.next_sense_id s.misc).1 = db5
        have hk5 : db5.kanji = db.kanji := by rw [← hdb5, miscLoop_kanji, hk4]
        rcases Option.eq_none_or_eq_some (dialectLoop db5 db.next_sense_id s.dialect).2 with h6 | ⟨e, h6⟩
        · rw [h6]
          simp only
          generalize hdb6 : (dialectLoop db5 db.next_sense_id s.dialect).1 = db6
          have hk6 : db6.kanji = db.kanji := by rw [← hdb6, dialectLoop_kanji, hk5]
          have hk7 : ∀ dbx : DB,
              (s.info.foldl (fun d i =>
                { d with sense_info := d.sense_info ++ [(db.next_sense_id, i)] }) dbx).kanji = dbx.kanji := by
            intro dbx
            refine hfold _ _ ?_ _ dbx
            intro d a
            rfl
          rcases except_eq_error_or_ok (collectGlosses db.next_sense_id s.gloss) with ⟨e, h8⟩ | ⟨gl, h8⟩
          · rw [h8]
            simp only
            rw [hk7, hk6]
          · rw [h8]
            simp only
            have h9 : ∀ dbx : DB,
                (s.languageSource.foldl (fun d ls =>
                  { d with language_source := d.language_source ++
                      [⟨db.next_sense_id, ls.lang, ls.full, ls.wasei⟩] }) dbx).kanji = dbx.kanji := by
              intro dbx
              refine hfold _ _ ?_ _ dbx
              intro d a
              rfl
            have h10 : ∀ dbx : DB,
                (s.related.foldl (fun d r =>
                  { d with xrefs := d.xrefs ++ [⟨db.next_sense_id, r, "related"⟩] }) dbx).kanji = dbx.kanji := by
              intro dbx
              refine hfold _ _ ?_ _ dbx
              intro d a
              rfl
            have h11 : ∀ dbx : DB,
                (s.antonym.foldl (fun d r =>
                  { d with xrefs := d.xrefs ++ [⟨db.next_sense_id, r, "antonym"⟩] }) dbx).kanji = dbx.kanji := by
              intro dbx
              refine hfold _ _ ?_ _ dbx
              intro d a
              rfl
            rw [h11, h10, h9, hk7, hk6]
        · rw [h6]
          simp only
          rw [dialectLoop_kanji, hk5]
      · rw [h5]
        simp only
        rw [miscLoop_kanji, hk4]
    · rw [h4]
      simp only
      rw [fieldLoop_kanji, hk13]
  · rw [h1]
    simp only
    rw [posLoop_kanji]

/-- The sense pass over one word leaves the kanji table alone. -/
theorem sensesOfWord_kanji (eid : String) :
    ∀ (ss : List SenseJson) (db : DB), (sensesOfWord db eid ss).1.kanji = db.kanji := by
  intro ss
  induction ss with
  | nil => intro db; rfl
  | cons s ss ih =>
      intro db
      unfold sensesOfWord
      simp only
      rcases Option.eq_none_or_eq_some (processSense db eid s).2.2 with h | ⟨e, h⟩
      · rw [h]
        simp only
        rw [ih, processSense_kanji]
      · rw [h]
        simp only
        rw [processSense_kanji]

/-- The sense loop leaves the kanji table alone. -/
theorem senseLoop_kanji :
    ∀ (ws : List WordJson) (db : DB), (senseLoop db ws).1.kanji = db.kanji := by
  intro ws
  induction ws with
  | nil => intro db; rfl
  | cons w ws ih =>
      intro db
      unfold senseLoop
      simp only
      rcases Option.eq_none_or_eq_some w.id with hid | ⟨eid, hid⟩
      · rw [hid]
      · rw [hid]
        simp only
        rcases Option.eq_none_or_eq_some (sensesOfWord db eid w.sense).2.2 with h | ⟨e, h⟩
        · rw [h]
          simp only
          rw [ih, sensesOfWord_kanji]
        · rw [h]
          simp only
          rw [sensesOfWord_kanji]

/-- The tag-table pass of `_process_tags` leaves the kanji table alone. -/
theorem processTags_kanji (c : Conn) (tags : List (String × String)) :
    (processTags c tags).current.kanji = c.current.kanji := by
  unfold processTags commitConn reloadTagCache
  simp only
  refine foldl_kanji _ ?_ _ c.current
  intro d a
  unfold insertTagRowIgnore
  split <;> rfl

/-- A successful batch appends exactly one kanji row per kanji writing of the
batch. -/
theorem processWordBatch_kanji (db : DB) (words : List WordJson)
    (h : (processWordBatch db words).2 = none) :
    (processWordBatch db words).1.kanji.length = db.kanji.length + sumKanji words := by
  unfold processWordBatch at h ⊢
  rcases except_eq_error_or_ok (buildEntryData words) with ⟨e, hed⟩ | ⟨ed, hed⟩
  · rw [hed] at h
    simp at h
  · rw [hed] at h ⊢
    simp only at h ⊢
    rcases Option.eq_none_or_eq_some (kanjiLoop (insertEntriesIgnore db ed) words).2.2
        with hB | ⟨e, hB⟩
    · rw [hB] at h ⊢
      simp only at h ⊢
      rcases Option.eq_none_or_eq_some
          (kanaLoop { (kanjiLoop (insertEntriesIgnore db ed) words).1 with
              kanji_tags := (kanjiLoop (insertEntriesIgnore db ed) words).2.1.foldl insertPairIgnore
                (kanjiLoop (insertEntriesIgnore db ed) words).1.kanji_tags } words).2.2.2
          with hD | ⟨e, hD⟩
      · rw [hD] at h ⊢
        simp only at h ⊢
        set dbB := (kanjiLoop (insertEntriesIgnore db ed) words).1 with hdbB
        set dbC : DB := { dbB with
            kanji_tags := (kanjiLoop (insertEntriesIgnore db ed) words).2.1.foldl insertPairIgnore dbB.kanji_tags }
          with hdbC
        set rD := kanaLoop dbC words with hrD
        set dbE : DB := { rD.1 with kana_tags := rD.2.1.foldl insertPairIgnore rD.1.kana_tags } with hdbE
        set dbF : DB := { dbE with kana_to_kanji := rD.2.2.1.foldl insertPairIgnore dbE.kana_to_kanji } with hdbF
        rcases Option.eq_none_or_eq_some (senseLoop dbF words).2.2 with hG | ⟨e, hG⟩
        · rw [hG] at h ⊢
          simp only at h ⊢
          have hgl : ((senseLoop dbF words).2.1.foldl insertGlossRow (senseLoop dbF words).1).kanji
              = (senseLoop dbF words).1.kanji := by
            refine foldl_kanji _ ?_ _ _
            intro d a
            unfold insertGlossRow
            simp only
            split <;> rfl
          rw [hgl, senseLoop_kanji]
          have hF : dbF.kanji = dbC.kanji := by
            rw [hdbF, hdbE]
            simp only
            rw [hrD, kanaLoop_kanji]
          rw [hF, hdbC]
          simp only
          rw [hdbB, kanjiLoop_kanji words _ hB, insertEntriesIgnore_kanji]
        · rw [hG] at h
          simp at h
      · rw [hD] at h
        simp at h
    · rw [hB] at h
      simp at h

/-- Total kanji writings over a batch list. -/
def sumKanjiB (bs : List (List WordJson)) : Nat :=
  (bs.map sumKanji).sum

/-- `sumKanji` is additive over append. -/
theorem sumKanji_append (l1 l2 : List WordJson) :
    sumKanji (l1 ++ l2) = sumKanji l1 + sumKanji l2 := by
  simp [sumKanji]

/-- Splitting into batches preserves the total kanji count. -/
theorem sumKanjiB_chunksGo (b : Nat) (hb : 1 ≤ b) :
    ∀ (fuel : Nat) (l : List WordJson), l.length ≤ fuel →
      sumKanjiB (chunksGo b fuel l) = sumKanji l := by
  intro fuel
  induction fuel with
  | zero =>
      intro l hl
      have : l = [] := List.length_eq_zero.mp (Nat.le_zero.mp hl)
      subst this
      simp [chunksGo, sumKanjiB, sumKanji]
  | succ fuel ih =>
      intro l hl
      cases l with
      | nil => simp [chunksGo, sumKanjiB, sumKanji]
      | cons x xs =>
          have hdrop : ((x :: xs).drop b).length ≤ fuel := by
            rw [List.length_drop]
            simp only [List.length_cons] at hl ⊢
            omega
          calc sumKanjiB (chunksGo b (fuel + 1) (x :: xs))
              = sumKanji ((x :: xs).take b) + sumKanjiB (chunksGo b fuel ((x :: xs).drop b)) := by
                simp [chunksGo, sumKanjiB]
            _ = sumKanji ((x :: xs).take b) + sumKanji ((x :: xs).drop b) := by
                rw [ih _ hdrop]
            _ = sumKanji ((x :: xs).take b ++ (x :: xs).drop b) := (sumKanji_append _ _).symm
            _ = sumKanji (x :: xs) := by rw [List.take_append_drop]

/-- The batch loop, when it completes, appends exactly the batch total. -/
theorem runBatches_kanji :
    ∀ (bs : List (List WordJson)) (c : Conn), (runBatches c bs).2 = none →
      (runBatches c bs).1.current.kanji.length = c.current.kanji.length + sumKanjiB bs := by
  intro bs
  induction bs with
  | nil => intro c _; simp [runBatches, sumKanjiB]
  | cons b bs ih =>
      intro c h
      unfold runBatches at h ⊢
      simp only at h ⊢
      rcases Option.eq_none_or_eq_some (processWordBatch c.current b).2 with hp | ⟨e, hp⟩
      · rw [hp] at h ⊢
        simp only at h ⊢
        rw [ih _ h]
        simp only [commitConn]
        rw [processWordBatch_kanji c.current b hp]
        simp [sumKanjiB]
        omega
      · rw [hp] at h
        simp at h

/-- A successful `parse_file` appends exactly one kanji row per kanji writing
of the document. -/
theorem parseFile_kanji (c : Conn) (doc : JmdictDoc) (b : Nat)
    (h : (parseFile c doc b).2 = none) :
    (parseFile c doc b).1.current.kanji.length
      = c.current.kanji.length + sumKanji doc.words := by
  unfold parseFile at h ⊢
  simp only at h ⊢
  rcases Nat.eq_zero_or_pos b with hb | hb
  · subst hb
    simp at h
  · have hbne : ¬ (b = 0) := Nat.pos_iff_ne_zero.mp hb
    rw [if_neg hbne] at h ⊢
    simp only [commitConn, recreateFtsTriggersDb] at h ⊢
    have hrun := runBatches_kanji (chunks b doc.words)
        { (processTags c doc.tags) with
          fkEnabled := false,
          current := dropGlossTriggersDb (processTags c doc.tags).current } h
    rw [hrun]
    simp only [dropGlossTriggersDb, chunks]
    rw [sumKanjiB_chunksGo b hb doc.words.length doc.words (Nat.le_refl _)]
    have hpt : (processTags c doc.tags).current.kanji = c.current.kanji :=
      processTags_kanji c doc.tags
    simp [hpt]

/-- Whatever happens inside the batch loop, the `finally` block of
`parse_file` commits the open transaction, re-enables foreign keys, and
recreates the FTS triggers. -/
theorem parseFile_post (c : Conn) (doc : JmdictDoc) (b : Nat) :
    (parseFile c doc b).1.committed = (parseFile c doc b).1.current ∧
    (parseFile c doc b).1.fkEnabled = true ∧
    (parseFile c doc b).1.current.gloss_triggers = true := by
  unfold parseFile
  simp [commitConn, recreateFtsTriggersDb]

/-- What a successful rebuild guarantees: both indexes repopulated from their
base tables (the kanjidic one only when its virtual table exists), with the
rest of the state untouched. -/
theorem rebuildFtsIndex_ok (x y : DB) (h : rebuildFtsIndex x = .ok y) :
    y.gloss_fts = y.glosses.map (fun g => (g.id, g.text)) ∧
    y.gloss_triggers = x.gloss_triggers ∧
    y.meanings_fts_exists = x.meanings_fts_exists ∧
    (y.meanings_fts_exists = true →
      y.meanings_fts = y.meanings.map (fun m => (m.id, m.value))) := by
  unfold rebuildFtsIndex at h
  rcases hg : x.gloss_fts_exists with _ | _
  · rw [hg] at h
    simp at h
  · rw [hg] at h
    rw [if_neg (by simp)] at h
    rcases hm : x.meanings_fts_exists with _ | _
    · rw [if_neg (by
        show ¬ (({ x with gloss_fts := x.glosses.map fun g => (g.id, g.text) } : DB).meanings_fts_exists = true)
        show ¬ (x.meanings_fts_exists = true)
        simp [hm])] at h
      have hy := Except.ok.inj h
      subst hy
      refine ⟨rfl, rfl, hm, ?_⟩
      intro hc
      have hc2 : x.meanings_fts_exists = true := hc
      rw [hm] at hc2
      exact Bool.noConfusion hc2
    · rw [if_pos (by
        show ({ x with gloss_fts := x.glosses.map fun g => (g.id, g.text) } : DB).meanings_fts_exists = true
        show x.meanings_fts_exists = true
        exact hm)] at h
      have hy := Except.ok.inj h
      subst hy
      exact ⟨rfl, rfl, hm, fun _ => rfl⟩

/-- Inserting rows with the after-insert trigger active builds the map image
of the rows. -/
theorem glossFtsViaTriggers_eq :
    ∀ (gs : List GlossRow) (acc : List (Nat × String)),
      glossFtsViaTriggers acc gs = acc ++ gs.map (fun g => (g.id, g.text)) := by
  intro gs
  induction gs with
  | nil => intro acc; simp [glossFtsViaTriggers]
  | cons g gs ih => intro acc; simp [glossFtsViaTriggers, ih]

/-- Same statement for the kanjidic meanings trigger. -/
theorem meaningsFtsViaTriggers_eq :
    ∀ (ms : List MeaningRow) (acc : List (Nat × String)),
      meaningsFtsViaTriggers acc ms = acc ++ ms.map (fun m => (m.id, m.value)) := by
  intro ms
  induction ms with
  | nil => intro acc; simp [meaningsFtsViaTriggers]
  | cons m ms ih => intro acc; simp [meaningsFtsViaTriggers, ih]

/-- A word without an id makes the `entry_data` comprehension raise before
anything is inserted. -/
theorem buildEntryData_err (ws : List WordJson) (hw : ∃ w ∈ ws, w.id = none) :
    ∃ e, buildEntryData ws = .error e := by
  induction ws with
  | nil => simp at hw
  | cons w ws ih =>
      obtain ⟨w0, hmem, hid0⟩ := hw
      unfold buildEntryData
      rcases Option.eq_none_or_eq_some w.id with hid | ⟨i, hid⟩
      · rw [hid]
        exact ⟨.keyError, rfl⟩
      · rw [hid]
        simp only
        rcases except_eq_error_or_ok (pyInt i) with ⟨e, hp⟩ | ⟨n, hp⟩
        · rw [hp]
          exact ⟨e, rfl⟩
        · rw [hp]
          simp only
          have hw0ws : w0 ∈ ws := by
            rcases List.mem_cons.mp hmem with rfl | hws
            · rw [hid0] at hid
              exact Option.noConfusion hid
            · exact hws
          obtain ⟨e, he⟩ := ih ⟨w0, hw0ws, hid0⟩
          rw [he]
          exact ⟨e, rfl⟩

/-- Appending a row for a missing pair makes the pair query find it. -/
theorem tagsSelect_append_self (t c : String) (i : Nat) (d : Option String) :
    ∀ (l : List TagRow), tagsSelect l t c = none →
      tagsSelect (l ++ [⟨i, t, d, c⟩]) t c = some i := by
  intro l
  induction l with
  | nil =>
      intro _
      simp [tagsSelect]
  | cons r rs ih =>
      intro h
      unfold tagsSelect at h
      rcases em (r.tag = t ∧ r.category = c) with hr | hr
      · rw [if_pos hr] at h
        exact Option.noConfusion h
      · rw [if_neg hr] at h
        rw [List.cons_append]
        show (if r.tag = t ∧ r.category = c then some r.id
              else tagsSelect (rs ++ [⟨i, t, d, c⟩]) t c) = some i
        rw [if_neg hr]
        exact ih h

/-! Claim theorems. -/

/-- C4: during one load, any two tag resolutions through `_get_tag_id` that
use the same (code, category) pair return the same tag identifier — the pair
maps to exactly one identifier for the lifetime of the load. -/
theorem tag_pair_resolves_uniquely (db : DB) (ps : List (String × String)) (db' : DB)
    (ids : List Nat) (h : runResolutions db ps = .ok (db', ids)) :
    ∀ x ∈ ps.zip ids, ∀ y ∈ ps.zip ids, x.1 = y.1 → x.2 = y.2 := by
  induction ps generalizing db db' ids with
  | nil =>
      intro x hx
      obtain ⟨rfl, rfl⟩ : db = db' ∧ [] = ids := by simpa [runResolutions] using h
      simp at hx
  | cons p ps ih =>
      intro x hx y hy hxy
      unfold runResolutions at h
      rcases except_eq_error_or_ok (getTagId db p.1 p.2) with ⟨e, hg⟩ | ⟨q, hg⟩
      · rw [hg] at h
        simp at h
      · rw [hg] at h
        simp only at h
        rcases except_eq_error_or_ok (runResolutions q.1 ps) with ⟨e, hr⟩ | ⟨s, hr⟩
        · rw [hr] at h
          simp at h
        · rw [hr] at h
          simp only at h
          obtain ⟨h1, h2⟩ : s.1 = db' ∧ q.2 :: s.2 = ids := by simpa using h
          subst h1
          subst h2
          rw [List.zip_cons_cons] at hx hy
          have hcache : cacheLookup q.1.tag_cache p.1 p.2 = some q.2 :=
            getTagId_caches db p.1 p.2 q.1 q.2 hg
          rcases List.mem_cons.mp hx with rfl | hxt
          · rcases List.mem_cons.mp hy with rfl | hyt
            · rfl
            · have hy1 : y.1 = (p.1, p.2) := by rw [← hxy]
              exact (runResolutions_consistent ps q.1 s.1 s.2 hr p.1 p.2 q.2 hcache y hyt hy1).symm
          · rcases List.mem_cons.mp hy with rfl | hyt
            · have hx1 : x.1 = (p.1, p.2) := by rw [hxy]
              exact runResolutions_consistent ps q.1 s.1 s.2 hr p.1 p.2 q.2 hcache x hxt hx1
            · exact ih q.1 s.1 s.2 hr x hxt y hyt hxy

/-- A concrete resolution sequence repeating the pair ("v1", "pos"). -/
def demoPairs : List (String × String) := [("v1", "pos"), ("n", "misc"), ("v1", "pos")]

/-- Witness for C4: over the concrete sequence `demoPairs` from an empty
state, the first and third resolutions (same pair) return the same id. -/
theorem tag_pair_resolves_uniquely_witness :
    ((demoPairs.zip [1, 2, 1]).get ⟨0, by decide⟩).2
      = ((demoPairs.zip [1, 2, 1]).get ⟨2, by decide⟩).2 := by
  obtain ⟨d, hd⟩ : ∃ d, runResolutions emptyDB demoPairs = .ok (d, [1, 2, 1]) := ⟨_, rfl⟩
  exact tag_pair_resolves_uniquely emptyDB demoPairs d [1, 2, 1] hd
    _ (by decide) _ (by decide) (by decide)

/-- C1 counterexample: loading `doc1` twice into the same database succeeds
both times but leaves two kanji rows where one load leaves one — the kanji
insert is a plain INSERT, not insert-or-ignore, so the per-table row counts
differ between one and two loads. -/
theorem load_twice_row_counts_cex :
    (parseFile initialConn doc1 1000).2 = none ∧
    (parseFile (parseFile initialConn doc1 1000).1 doc1 1000).2 = none ∧
    (parseFile initialConn doc1 1000).1.current.kanji.length = 1 ∧
    (parseFile (parseFile initialConn doc1 1000).1 doc1 1000).1.current.kanji.length = 2 :=
  ⟨rfl, rfl, rfl, rfl⟩

/-- C1 as amended: a successful load appends one fresh kanji row per kanji
writing of the document (so re-loading grows the child tables instead of
leaving the counts unchanged), and the metadata insert of
`DataLoader.load_jmdict_data` is a plain insert with fixed primary key 1 that
raises `IntegrityError` when a metadata row already exists instead of
silently keeping the singleton. -/
theorem load_appends_child_rows :
    (∀ (c : Conn) (doc : JmdictDoc) (b : Nat) (r : Conn),
        parseFile c doc b = (r, none) →
        r.current.kanji.length = c.current.kanji.length + sumKanji doc.words) ∧
    (∀ (rows : List JmdictMetaRow) (v d : String) (co : Bool) (tg : String),
        (∃ x ∈ rows, x.id = 1) →
        insertJmdictMetadata rows v d co tg = .error .integrityError) := by
  constructor
  · intro c doc b r h
    have h2 : (parseFile c doc b).2 = none := by rw [h]
    have h1 : (parseFile c doc b).1 = r := by rw [h]
    rw [← h1]
    exact parseFile_kanji c doc b h2
  · intro rows v d co tg hx
    obtain ⟨x, hmem, hid⟩ := hx
    have hany : rows.any (fun r => decide (r.id = 1)) = true :=
      List.any_eq_true.mpr ⟨x, hmem, by simp [hid]⟩
    unfold insertJmdictMetadata
    rw [if_pos hany]

/-- Witness for the amended C1 at the concrete document `doc1` and an
existing metadata row. -/
theorem load_appends_child_rows_witness :
    (parseFile (parseFile initialConn doc1 1000).1 doc1 1000).1.current.kanji.length
      = (parseFile initialConn doc1 1000).1.current.kanji.length + sumKanji doc1.words ∧
    insertJmdictMetadata [⟨1, "3.5.0", "2024-01-01", false, "tags"⟩]
        "3.5.0" "2024-01-01" false "tags" = .error .integrityError := by
  constructor
  · obtain ⟨r, hr⟩ :
        ∃ r, parseFile (parseFile initialConn doc1 1000).1 doc1 1000 = (r, none) := ⟨_, rfl⟩
    rw [hr]
    exact load_appends_child_rows.1 (parseFile initialConn doc1 1000).1 doc1 1000 r hr
  · exact load_appends_child_rows.2 _ _ _ _ _
      ⟨⟨1, "3.5.0", "2024-01-01", false, "tags"⟩, List.mem_singleton.mpr rfl, rfl⟩

/-- C2 counterexample: with batch size 1, `doc2`'s second batch fails on its
malformed gloss after its kanji row and sense row executed; the `finally`
block commits them, so the committed database holds rows inserted by the
failing batch — there is no rollback. -/
theorem failing_batch_rows_committed_cex :
    (parseFile initialConn doc2 1).2 = some PyErr.keyError ∧
    (parseFile initialConn doc2 1).1.committed.kanji =
      [⟨1, "1", "一", false⟩, ⟨2, "2", "二", false⟩] ∧
    (parseFile initialConn doc2 1).1.committed.senses = [(1, "2")] :=
  ⟨rfl, rfl, rfl⟩

/-- C2 as amended: whether the batch loop succeeds or a batch raises,
`parse_file`'s `finally` block commits the open transaction (so every row the
failing batch had executed is committed and nothing is rolled back), then
re-enables foreign keys and recreates the FTS triggers; batches committed
earlier remain in the committed state it extends. -/
theorem parse_file_finally_commits (c : Conn) (doc : JmdictDoc) (b : Nat) :
    (parseFile c doc b).1.committed = (parseFile c doc b).1.current ∧
    (parseFile c doc b).1.fkEnabled = true ∧
    (parseFile c doc b).1.current.gloss_triggers = true :=
  parseFile_post c doc b

/-- A malformed word: the required `id` key is absent. -/
def wordNoId : WordJson := { kanji := [{ text := some "三" }] }

/-- C5 counterexample: a batch holding a malformed word (no id) followed by a
well-formed word aborts with `KeyError` and inserts nothing — the malformed
entity is not skipped, and the remaining entity of the batch is not inserted. -/
theorem malformed_entity_aborts_batch_cex :
    processWordBatch emptyDB [wordNoId, word1] = (emptyDB, some PyErr.keyError) := rfl

/-- C5 as amended: a batch containing an entity without its required id makes
`_process_word_batch` raise out of the `entry_data` comprehension before any
insert, aborting the whole batch (no logging, no skip-and-continue, and none
of the batch's entities are inserted). -/
theorem missing_id_aborts_batch (db : DB) (ws : List WordJson)
    (hw : ∃ w ∈ ws, w.id = none) :
    ∃ e, processWordBatch db ws = (db, some e) := by
  obtain ⟨e, he⟩ := buildEntryData_err ws hw
  refine ⟨e, ?_⟩
  unfold processWordBatch
  rw [he]

/-- Witness for the amended C5 at the concrete two-word batch. -/
theorem missing_id_aborts_batch_witness :
    (processWordBatch emptyDB [wordNoId, word1]).1 = emptyDB := by
  obtain ⟨e, he⟩ := missing_id_aborts_batch emptyDB [wordNoId, word1]
      ⟨wordNoId, List.mem_cons_self _ _, rfl⟩
  rw [he]

/-- C3: when `DictionaryLoader.load_jmdict` completes, foreign keys are
re-enabled, the gloss FTS triggers are recreated, and the rebuild directive
leaves the gloss index (and the kanjidic meanings index, when its virtual
table exists) exactly equal to the index that inserting the same base rows
with the triggers active would have produced. -/
theorem bulk_load_rebuild_equivalence (c : Conn) (doc : JmdictDoc) (c' : Conn)
    (h : loadJmdict c doc = (c', none)) :
    c'.fkEnabled = true ∧
    c'.current.gloss_triggers = true ∧
    c'.current.gloss_fts = glossFtsViaTriggers [] c'.current.glosses ∧
    (c'.current.meanings_fts_exists = true →
      c'.current.meanings_fts = meaningsFtsViaTriggers [] c'.current.meanings) := by
  unfold loadJmdict at h
  simp only at h
  rcases Option.eq_none_or_eq_some (parseFile c doc 1000).2 with hp | ⟨e, hp⟩
  · rw [hp] at h
    simp only at h
    rcases except_eq_error_or_ok (rebuildFtsIndex (parseFile c doc 1000).1.current)
        with ⟨e, hreb⟩ | ⟨db, hreb⟩
    · rw [hreb] at h
      simp at h
    · rw [hreb] at h
      simp only at h
      have h1 : commitConn { (parseFile c doc 1000).1 with current := db } = c' := by
        simpa using h
      subst h1
      have hpost := parseFile_post c doc 1000
      have hrs := rebuildFtsIndex_ok (parseFile c doc 1000).1.current db hreb
      refine ⟨hpost.2.1, ?_, ?_, ?_⟩
      · show db.gloss_triggers = true
        rw [hrs.2.1]
        exact hpost.2.2
      · show db.gloss_fts = glossFtsViaTriggers [] db.glosses
        rw [glossFtsViaTriggers_eq]
        simpa using hrs.1
      · intro hm
        show db.meanings_fts = meaningsFtsViaTriggers [] db.meanings
        rw [meaningsFtsViaTriggers_eq]
        simpa using hrs.2.2.2 hm
  · rw [hp] at h
    simp at h

/-- Witness for C3 at the concrete document `doc3` loaded into a freshly
created schema. -/
theorem bulk_load_rebuild_equivalence_witness :
    (loadJmdict (createTables initialConn) doc3).1.fkEnabled = true ∧
    (loadJmdict (createTables initialConn) doc3).1.current.gloss_triggers = true ∧
    (loadJmdict (createTables initialConn) doc3).1.current.gloss_fts
      = glossFtsViaTriggers [] (loadJmdict (createTables initialConn) doc3).1.current.glosses ∧
    (loadJmdict (createTables initialConn) doc3).1.current.meanings_fts
      = meaningsFtsViaTriggers [] (loadJmdict (createTables initialConn) doc3).1.current.meanings := by
  have h : loadJmdict (createTables initialConn) doc3
      = ((loadJmdict (createTables initialConn) doc3).1, none) := rfl
  have hth := bulk_load_rebuild_equivalence (createTables initialConn) doc3
      (loadJmdict (createTables initialConn) doc3).1 h
  exact ⟨hth.1, hth.2.1, hth.2.2.1, hth.2.2.2 (by rfl)⟩

/-- C6: loading the spec's concrete word entry through schema creation,
`parse_file` and the FTS rebuild produces exactly the claimed rows, and after
the final commit a full-text query for "eat" returns the gloss row id. -/
theorem concrete_word_entry_scenario :
    (loadJmdict (createTables initialConn) doc6).2 = none ∧
    (loadJmdict (createTables initialConn) doc6).1.current.entries = [("1000000", 1000000)] ∧
    (loadJmdict (createTables initialConn) doc6).1.current.kanji
      = [⟨1, "1000000", "食べる", true⟩] ∧
    (loadJmdict (createTables initialConn) doc6).1.current.kana
      = [⟨1, "1000000", "たべる", true⟩] ∧
    (loadJmdict (createTables initialConn) doc6).1.current.kana_to_kanji = [(1, "食べる")] ∧
    (loadJmdict (createTables initialConn) doc6).1.current.senses = [(1, "1000000")] ∧
    (loadJmdict (createTables initialConn) doc6).1.current.sense_pos = [(1, 1)] ∧
    (loadJmdict (createTables initialConn) doc6).1.current.tags = [⟨1, "v1", none, "pos"⟩] ∧
    (loadJmdict (createTables initialConn) doc6).1.current.glosses
      = [⟨1, 1, "to eat", "eng", none, none⟩] ∧
    (loadJmdict (createTables initialConn) doc6).1.committed
      = (loadJmdict (createTables initialConn) doc6).1.current ∧
    ftsMatch (loadJmdict (createTables initialConn) doc6).1.current.gloss_fts "eat" = [1] :=
  ⟨rfl, rfl, rfl, rfl, rfl, rfl, rfl, rfl, rfl, rfl, rfl⟩

/-- A populated database with a live gloss FTS index, used to show that
re-running schema creation is not content-preserving. -/
def dbPre : DB :=
  { emptyDB with
    entries := [("9", 9)],
    glosses := [⟨1, 1, "hello", "eng", none, none⟩],
    next_gloss_id := 2,
    gloss_fts_exists := true,
    gloss_fts := [(1, "hello")],
    gloss_triggers := true,
    meanings_fts_exists := true,
    meanings_triggers := true }

/-- The same database on both sides of a connection. -/
def connPre : Conn := { committed := dbPre, current := dbPre, fkEnabled := true }

/-- C7 counterexample: invoking schema creation against an existing populated
database empties the gloss FTS index content (`_create_indexes` runs
`DROP TABLE IF EXISTS jmdict_gloss_fts` unconditionally before recreating
it), so the call is not change-free. -/
theorem create_tables_drops_fts_cex :
    (createTables connPre).current.gloss_fts ≠ connPre.current.gloss_fts := by decide

/-- C7 as amended: re-running schema creation leaves every base table's rows
(and the base-table autoincrement state) untouched — those statements use
IF NOT EXISTS — but it unconditionally drops and recreates both FTS virtual
tables, so they come out existing, trigger-backed, and empty; the FTS content
is lost until a rebuild. -/
theorem create_tables_frame (c : Conn) :
    (createTables c).current.entries = c.current.entries ∧
    (createTables c).current.kanji = c.current.kanji ∧
    (createTables c).current.kana = c.current.kana ∧
    (createTables c).current.senses = c.current.senses ∧
    (createTables c).current.glosses = c.current.glosses ∧
    (createTables c).current.next_gloss_id = c.current.next_gloss_id ∧
    (createTables c).current.tags = c.current.tags ∧
    (createTables c).current.characters = c.current.characters ∧
    (createTables c).current.meanings = c.current.meanings ∧
    (createTables c).current.gloss_fts = [] ∧
    (createTables c).current.gloss_fts_exists = true ∧
    (createTables c).current.gloss_triggers = true ∧
    (createTables c).current.meanings_fts = [] ∧
    (createTables c).current.meanings_fts_exists = true ∧
    (createTables c).current.meanings_triggers = true ∧
    (createTables c).committed = (createTables c).current :=
  ⟨rfl, rfl, rfl, rfl, rfl, rfl, rfl, rfl, rfl, rfl, rfl, rfl, rfl, rfl, rfl, rfl⟩

/-- C8 counterexample: on a state where ("n", "pos") misses both the cache
and the table, a conflicting insert of the same pair between the resolver's
table lookup and its own insert makes `_get_tag_id` raise `IntegrityError`
instead of returning the existing tag's identifier — the resolver uses a
plain insert with no re-read. -/
theorem raced_resolver_raises_cex :
    getTagIdRaced emptyDB "n" "pos" = .error .integrityError := rfl

/-- C8 as amended: whenever a pair misses both the cache and the table and a
conflicting insert of the same pair lands before the resolver's own insert,
the resolver raises `IntegrityError` (plain insert, no insert-or-ignore, no
re-read); the spec-modelled insert-or-ignore-plus-re-read resolver returns
the conflicting row's identifier in the same interleaving. -/
theorem raced_resolver_raises (db : DB) (t c : String)
    (hc : cacheLookup db.tag_cache t c = none)
    (hs : tagsSelect db.tags t c = none) :
    getTagIdRaced db t c = .error .integrityError ∧
    getTagIdSpecRaced db t c = .ok
      (cachePut { db with tags := db.tags ++ [⟨db.next_tag_id, t, none, c⟩],
                          next_tag_id := db.next_tag_id + 1 } t c db.next_tag_id,
       db.next_tag_id) := by
  have happ : tagsSelect (db.tags ++ [⟨db.next_tag_id, t, none, c⟩]) t c
      = some db.next_tag_id :=
    tagsSelect_append_self t c db.next_tag_id none db.tags hs
  constructor
  · unfold getTagIdRaced
    rw [hc]
    simp only
    rw [hs]
    simp only
    unfold tagsInsertPlain
    rw [hs]
    simp only
    rw [happ]
  · unfold getTagIdSpecRaced
    rw [hc]
    simp only
    rw [hs]
    simp only
    unfold tagsInsertPlain
    rw [hs]
    simp only
    unfold insertTagIgnoreNoDesc
    simp only
    rw [happ]
    simp only
    rw [happ]

/-- Witness for the amended C8 at the empty state and the pair
("v5", "pos"). -/
theorem raced_resolver_raises_witness :
    getTagIdRaced emptyDB "v5" "pos" = .error .integrityError :=
  (raced_resolver_raises emptyDB "v5" "pos" rfl rfl).1

/-- A database holding kanjidic data whose jmdict gloss FTS table is missing
(the jmdict family was never loaded). -/
def db9 : DB :=
  { emptyDB with
    meanings_fts_exists := true,
    meanings_triggers := true,
    meanings := [⟨1, "水", "en", "water"⟩],
    next_meaning_id := 2 }

/-- C9 counterexample: with the jmdict gloss FTS table missing,
`rebuild_fts_index` raises `OperationalError` out of its first, unguarded
statement instead of warning and rebuilding the kanjidic index that does
exist. -/
theorem rebuild_missing_family_cex :
    rebuildFtsIndex db9 = .error .operationalError := rfl

/-- C9 as amended: only the kanjidic side of the rebuild tolerates a missing
FTS table — `rebuild_fts_index` then still rebuilds the jmdict gloss index
and returns (silently skipping the kanjidic one), and the kanjidic loader's
inline rebuild step reports the missing table as a warning without raising;
a missing jmdict gloss FTS table, by contrast, makes the rebuild raise. -/
theorem rebuild_missing_kanjidic (db : DB)
    (hg : db.gloss_fts_exists = true)
    (hm : db.meanings_fts_exists = false) :
    rebuildFtsIndex db = .ok { db with gloss_fts := db.glosses.map fun g => (g.id, g.text) } ∧
    (kanjidicRebuildStep { committed := db, current := db, fkEnabled := true }).1
      = { committed := db, current := db, fkEnabled := true } ∧
    (kanjidicRebuildStep { committed := db, current := db, fkEnabled := true }).2
      = ["Could not rebuild Kanjidic FTS index"] := by
  refine ⟨?_, ?_, ?_⟩
  · unfold rebuildFtsIndex
    rw [hg]
    rw [if_neg (by simp)]
    rw [if_neg (by
      show ¬ (({ db with gloss_fts := db.glosses.map fun g => (g.id, g.text) } : DB).meanings_fts_exists = true)
      show ¬ (db.meanings_fts_exists = true)
      simp [hm])]
  · unfold kanjidicRebuildStep
    rw [if_neg (by
      show ¬ (({ committed := db, current := db, fkEnabled := true } : Conn).current.meanings_fts_exists = true)
      show ¬ (db.meanings_fts_exists = true)
      simp [hm])]
  · unfold kanjidicRebuildStep
    rw [if_neg (by
      show ¬ (({ committed := db, current := db, fkEnabled := true } : Conn).current.meanings_fts_exists = true)
      show ¬ (db.meanings_fts_exists = true)
      simp [hm])]

/-- Witness for the amended C9: a schema whose only index table is the
jmdict gloss one rebuilds without raising. -/
theorem rebuild_missing_kanjidic_witness :
    rebuildFtsIndex { emptyDB with gloss_fts_exists := true }
      = .ok { emptyDB with gloss_fts_exists := true } :=
  (rebuild_missing_kanjidic { emptyDB with gloss_fts_exists := true } rfl rfl).1

/-- A well-formed character entity whose `strokeCounts` is present but an
empty list. -/
def char10 : CharJson := { literal := "食", misc := some { strokeCounts := some [] } }

/-- The same character with the `strokeCounts` key absent. -/
def char10b : CharJson := { literal := "食" }

/-- C10: a present-but-empty `strokeCounts` list makes
`_process_character_batch` raise an unguarded `IndexError` out of
`misc.get('strokeCounts', [None])[0]`, aborting the batch with nothing
inserted, while an absent `strokeCounts` key stores a null stroke count. -/
theorem empty_stroke_counts_aborts_batch :
    processCharacterBatch emptyDB [char10] = (emptyDB, some PyErr.indexError) ∧
    (processCharacterBatch emptyDB [char10b]).2 = none ∧
    (processCharacterBatch emptyDB [char10b]).1.characters
      = [⟨"食", none, none, none, none⟩] :=
  ⟨rfl, rfl, rfl⟩
